import Mathlib

/-!
# simpleDictionary

A shallow embedding of `simpleDictionary/main.go`: a command-line tool that looks a
word up at two dictionary web endpoints (Caiyun and Baidu) from two goroutines joined
by a `sync.WaitGroup`, and prints a short summary for each.

The embedding keeps the control flow of the Go functions.  Everything outside the
program (the JSON codec, the HTTP transport) is an explicit environment `Env`; the
observable behaviour of a function is the trace of events it produces together with
the way it terminates (normal return, `os.Exit`, or a run-time panic).
-/

namespace SimpleDictionary

/-! ## Data model -/

/-- A value decoded into an `interface{}` field. -/
inductive JsonAny where
  | null
  | bool (b : Bool)
  | number (text : String)
  | str (s : String)
  | arr (items : List JsonAny)
  | obj (fields : List (String × JsonAny))

/-- Go: `type DictRequest struct`. -/
structure DictRequest where
  TransType : String := ""
  Source : String := ""
  UserID : String := ""

/-- Go: the anonymous struct of `DictResponse.Wiki.Description`. -/
structure DictResponse.WikiDescription where
  Source : String := ""
  Target : JsonAny := JsonAny.null

/-- Go: the anonymous struct of `DictResponse.Wiki.Item`. -/
structure DictResponse.WikiItem where
  Source : String := ""
  Target : String := ""

/-- Go: the anonymous struct of `DictResponse.Wiki`. -/
structure DictResponse.WikiT where
  KnownInLaguages : Int := 0
  Description : DictResponse.WikiDescription := {}
  ID : String := ""
  Item : DictResponse.WikiItem := {}
  ImageURL : String := ""
  IsSubject : String := ""
  Sitelink : String := ""

/-- Go: the anonymous struct of `DictResponse.Dictionary.Prons`. -/
structure DictResponse.PronsT where
  EnUs : String := ""
  En : String := ""

/-- Go: the anonymous struct of `DictResponse.Dictionary`. -/
structure DictResponse.DictionaryT where
  Prons : DictResponse.PronsT := {}
  Explanations : List String := []
  Synonym : List String := []
  Antonym : List String := []
  WqxExample : List (List String) := []
  Entry : String := ""
  Type_ : String := ""
  Related : List JsonAny := []
  Source : String := ""

/-- Go: `type DictResponse struct`.  The default field values are Go's zero values, so
`({} : DictResponse)` is the value of `var dictResponse DictResponse`. -/
structure DictResponse where
  Rc : Int := 0
  Wiki : DictResponse.WikiT := {}
  Dictionary : DictResponse.DictionaryT := {}

/-- Go: the element type of `BaiduResponse.DictResult.SimpleMeans.Symbols[i].Parts`. -/
structure BaiduResponse.PartT where
  Part : String := ""
  Means : List String := []

/-- Go: the element type of `BaiduResponse.DictResult.SimpleMeans.Symbols`. -/
structure BaiduResponse.SymbolT where
  PhEn : String := ""
  PhAm : String := ""
  Parts : List BaiduResponse.PartT := []
  PhOther : String := ""

/-- Go: the anonymous struct of `BaiduResponse.DictResult.SimpleMeans.Exchange`. -/
structure BaiduResponse.ExchangeT where
  WordPl : List String := []

/-- Go: the anonymous struct of `BaiduResponse.DictResult.SimpleMeans.Tags`. -/
structure BaiduResponse.TagsT where
  Core : List String := []
  Other : List String := []

/-- Go: the anonymous struct of `BaiduResponse.DictResult.SimpleMeans`. -/
structure BaiduResponse.SimpleMeansT where
  WordName : String := ""
  From : String := ""
  WordMeans : List String := []
  Exchange : BaiduResponse.ExchangeT := {}
  Tags : BaiduResponse.TagsT := {}
  Symbols : List BaiduResponse.SymbolT := []

/-- Go: the anonymous struct of `BaiduResponse.DictResult`.  Of its fields the program
reads `SimpleMeans` only; `From` and `Lang` are kept, the entries never read
(`Edict`, `Collins`, `Oxford`, `BaiduPhrase`, `QueryExplainVideo`) are not carried. -/
structure BaiduResponse.DictResultT where
  From : String := ""
  SimpleMeans : BaiduResponse.SimpleMeansT := {}
  Lang : String := ""

/-- Go: the anonymous struct of `BaiduResponse.LijuResult`. -/
structure BaiduResponse.LijuResultT where
  Double : String := ""
  Tag : List String := []
  Single : String := ""

/-- Go: `type BaiduResponse struct` (`TransResult` is never read and is not carried). -/
structure BaiduResponse where
  DictResult : BaiduResponse.DictResultT := {}
  LijuResult : BaiduResponse.LijuResultT := {}
  Logid : Int := 0

/-- Go: `http.Request`, as far as the program builds it. -/
structure Request where
  Method : String
  URL : String
  Body : String
  Header : List (String × String) := []

/-- Go: `req.Header.Set(key, value)`: the entry for `key` is replaced.  (The
canonical spelling `net/http` gives to the key is not modelled.) -/
def Request.Header_Set (req : Request) (key value : String) : Request :=
  { req with Header := req.Header.filter (fun kv => kv.1 != key) ++ [(key, value)] }

/-- Go: `http.Response`: the status code and what reading `resp.Body` to its end
gives, the bytes or a read error. -/
structure Response where
  StatusCode : Int
  Body : Except String String

/-- Go: `ioutil.ReadAll(resp.Body)`. -/
def ioutilReadAll (body : Except String String) : Except String String := body

/-- The world outside the program: the JSON codec and the HTTP stack.  Each field is
one library call made by the program; errors are carried as their message. -/
structure Env where
  /-- Go: `json.Marshal(request)`. -/
  jsonMarshal : DictRequest → Except String String
  /-- The error, if any, of `http.NewRequest(method, url, body)`. -/
  newRequestError : String → String → Option String
  /-- Go: `client.Do(req)`. -/
  clientDo : Request → Except String Response
  /-- Go: `json.Unmarshal(bodyText, &dictResponse)`. -/
  unmarshalDictResponse : String → Except String DictResponse
  /-- Go: `json.Unmarshal(bodyText, &baidurespon)`. -/
  unmarshalBaiduResponse : String → Except String BaiduResponse

/-- Go: `http.NewRequest(method, url, body)`. -/
def httpNewRequest (env : Env) (method url body : String) : Except String Request :=
  match env.newRequestError method url with
  | some e => Except.error e
  | none => Except.ok { Method := method, URL := url, Body := body }

/-! ## Execution model -/

/-- What a goroutine does to the rest of the process. -/
inductive Event where
  /-- One write to standard output. -/
  | stdout (text : String)
  /-- One write to standard error. -/
  | stderr (text : String)
  /-- One HTTP request handed to the transport. -/
  | send (req : Request)
  /-- Go: `resp.Body.Close()`. -/
  | closeBody
  /-- Go: `wg.Done()`. -/
  | wgDone
  /-- A run-time panic has started in this goroutine. -/
  | panicking (msg : String)

/-- How a piece of Go code ends. -/
inductive Outcome (α : Type) where
  /-- Control continues with a value. -/
  | ok (a : α)
  /-- Go: `os.Exit(code)`: the process ends at once, deferred calls are not run. -/
  | exit (code : Nat)
  /-- A run-time panic unwinds the goroutine, running its deferred calls. -/
  | panic (msg : String)

/-- A Go computation: the events it produced, in order, and how it ended. -/
structure Go (α : Type) where
  trace : List Event
  out : Outcome α

/-- Return a value without any event. -/
def Go.ret {α : Type} (a : α) : Go α := ⟨[], Outcome.ok a⟩

/-- Sequencing: the second part runs only when the first one ends normally. -/
def Go.seq {α β : Type} (m : Go α) (f : α → Go β) : Go β :=
  match m.out with
  | Outcome.ok a => ⟨m.trace ++ (f a).trace, (f a).out⟩
  | Outcome.exit c => ⟨m.trace, Outcome.exit c⟩
  | Outcome.panic msg => ⟨m.trace, Outcome.panic msg⟩

instance : Monad Go where
  pure := Go.ret
  bind := Go.seq

/-- A single event. -/
def emit (e : Event) : Go Unit := ⟨[e], Outcome.ok ()⟩

/-- Go: `os.Exit(code)`. -/
def osExit {α : Type} (code : Nat) : Go α := ⟨[], Outcome.exit code⟩

/-- Go: what the standard logger writes for a message: the message, and a newline
unless the message already ends with one.  (The date and time the logger puts before
the message are not modelled.) -/
def logLine (msg : String) : String :=
  if msg.data.getLast? = some '\n' then msg else msg ++ "\n"

/-- Go: `log.Fatal(v...)`: the message goes to standard error, then `os.Exit(1)`. -/
def logFatal {α : Type} (msg : String) : Go α :=
  Go.seq (emit (Event.stderr (logLine msg))) (fun _ => osExit 1)

/-- A run-time panic.  (The report the run-time writes to standard error when the
panic ends the process is not modelled.) -/
def goPanic {α : Type} (msg : String) : Go α :=
  ⟨[Event.panicking msg], Outcome.panic msg⟩

/-- Go: `defer d` followed by `body`.  The deferred call runs when `body` returns and
when it panics; it does not run when `body` ends in `os.Exit`. -/
def withDefer {α : Type} (d : Go Unit) (body : Go α) : Go α :=
  match body.out with
  | Outcome.exit _ => body
  | Outcome.ok a =>
    match d.out with
    | Outcome.ok _ => ⟨body.trace ++ d.trace, Outcome.ok a⟩
    | Outcome.exit c => ⟨body.trace ++ d.trace, Outcome.exit c⟩
    | Outcome.panic msg => ⟨body.trace ++ d.trace, Outcome.panic msg⟩
  | Outcome.panic msg =>
    match d.out with
    | Outcome.ok _ => ⟨body.trace ++ d.trace, Outcome.panic msg⟩
    | Outcome.exit c => ⟨body.trace ++ d.trace, Outcome.exit c⟩
    | Outcome.panic msg2 => ⟨body.trace ++ d.trace, Outcome.panic msg2⟩

/-- Go: `if err != nil { log.Fatal(err) }` after a call returning `(value, err)`. -/
def orFatal {α : Type} (r : Except String α) : Go α :=
  match r with
  | Except.ok a => Go.ret a
  | Except.error e => logFatal e

/-- Go: `fmt.Sprintln` on string operands: a space between operands, a newline at the end. -/
def fmtSprintln (args : List String) : String := " ".intercalate args ++ "\n"

/-- Go: `fmt.Println(args...)` on string operands. -/
def fmtPrintln (args : List String) : Go Unit := emit (Event.stdout (fmtSprintln args))

/-- Go: `for _, item := range items { body(item) }`. -/
def forRange {α : Type} (items : List α) (body : α → Go Unit) : Go Unit :=
  match items with
  | [] => Go.ret ()
  | item :: rest => Go.seq (body item) (fun _ => forRange rest body)

/-- Go: `wg.Done()`. -/
def wgDone : Go Unit := emit Event.wgDone

/-- Go: `resp.Body.Close()`. -/
def bodyClose : Go Unit := emit Event.closeBody

/-- Go: `client.Do(req)`: the request goes out, the transport answers. -/
def clientDo (env : Env) (req : Request) : Go (Except String Response) :=
  ⟨[Event.send req], Outcome.ok (env.clientDo req)⟩

/-- Apply `req.Header.Set` for each pair, in order. -/
def setHeaders (req : Request) (hs : List (String × String)) : Request :=
  hs.foldl (fun r kv => r.Header_Set kv.1 kv.2) req

/-- The text written to standard output, write by write. -/
def stdoutOf (t : List Event) : List String :=
  t.filterMap (fun e => match e with | Event.stdout s => some s | _ => none)

/-- The text written to standard error, write by write. -/
def stderrOf (t : List Event) : List String :=
  t.filterMap (fun e => match e with | Event.stderr s => some s | _ => none)

/-- The HTTP requests handed to the transport. -/
def sentOf (t : List Event) : List Request :=
  t.filterMap (fun e => match e with | Event.send r => some r | _ => none)

/-- The number of `wg.Done()` calls. -/
def doneCount (t : List Event) : Nat :=
  (t.filter (fun e => match e with | Event.wgDone => true | _ => false)).length

/-! ## The two clients -/

/-- The headers `queryCaiyun` sets, in source order. -/
def caiyunHeaders : List (String × String) :=
  [
    ("Connection", "keep-alive"),
    ("DNT", "1"),
    ("os-version", ""),
    ("sec-ch-ua-mobile", "?0"),
    ("User-Agent", "Mozilla/5.0 (Macintosh; Intel Mac OS X 10_15_7) AppleWebKit/537.36 (KHTML, like Gecko) Chrome/99.0.4844.51 Safari/537.36"),
    ("app-name", "xy"),
    ("Content-Type", "application/json;charset=UTF-8"),
    ("Accept", "application/json, text/plain, */*"),
    ("device-id", ""),
    ("os-type", "web"),
    ("X-Authorization", "token:qgemv4jr1y38jyq6vhvi"),
    ("Origin", "https://fanyi.caiyunapp.com"),
    ("Sec-Fetch-Site", "cross-site"),
    ("Sec-Fetch-Mode", "cors"),
    ("Sec-Fetch-Dest", "empty"),
    ("Referer", "https://fanyi.caiyunapp.com/"),
    ("Accept-Language", "zh-CN,zh;q=0.9"),
    ("Cookie", "_ym_uid=16456948721020430059; _ym_d=1645694872")
  ]

/-- Go: the text of `fmt.Sprint("bad StatusCode:", code, "body", body)`: no space is
added next to a string operand. -/
def badStatusMessage (code : Int) (body : String) : String :=
  "bad StatusCode:" ++ toString code ++ "body" ++ body

/-- Go: `func queryCaiyun(word string, wg *sync.WaitGroup)`. -/
def queryCaiyun (env : Env) (word : String) : Go Unit :=
  withDefer wgDone do
    let request : DictRequest := { TransType := "en2zh", Source := word }
    let buf ← orFatal (env.jsonMarshal request)
    let data := buf
    let req ← orFatal (httpNewRequest env "POST" "https://api.interpreter.caiyunai.com/v1/dict" data)
    let req := setHeaders req caiyunHeaders
    let resp ← orFatal (← clientDo env req)
    withDefer bodyClose do
      let bodyText ← orFatal (ioutilReadAll resp.Body)
      if resp.StatusCode != 200 then
        logFatal (badStatusMessage resp.StatusCode bodyText)
      let dictResponse ← orFatal (env.unmarshalDictResponse bodyText)
      fmtPrintln ["caiyun"]
      fmtPrintln [word, "UK:", dictResponse.Dictionary.Prons.En, "US:", dictResponse.Dictionary.Prons.EnUs]
      forRange dictResponse.Dictionary.Explanations (fun item => fmtPrintln [item])

/-- The request `queryCaiyun` hands to the transport when `json.Marshal` gave `buf`. -/
def caiyunRequest (buf : String) : Request :=
  setHeaders
    { Method := "POST", URL := "https://api.interpreter.caiyunai.com/v1/dict", Body := buf }
    caiyunHeaders

/-- The headers `queryBaidu` sets, in source order. -/
def baiduHeaders : List (String × String) :=
  [
    ("Accept", "*/*"),
    ("Accept-Language", "en-US,en;q=0.9,zh-CN;q=0.8,zh;q=0.7"),
    ("Acs-Token", "1673769896714_1673829283662_/jNTmMdug05eaCQYNoVx12H//AUDvT1OVFIc1YEyP35x5FqBhdI1kuYKANBm/la3C+OXMEJUUb6VTnUeapUl+WXq9MjdV6J9/DlVJ0judQVWZCq/D7FDCatiFVp6520RnLlIa4nXdEvGkwCuIqItTVzTJnVP5+6c2abzI8OzRlKHemqIHawSr95ZGTxoy3/jozpLcJpOzYa6EDlwts6xjGpWgbxUtlCteWModF5JCIA4AoGrRSooZhZYnrDwjjigU++aUEq4BKpJmGatXYCCYZAik2njsFDPSR4KnuMfigM="),
    ("Connection", "keep-alive"),
    ("Content-Type", "application/x-www-form-urlencoded; charset=UTF-8"),
    ("Cookie", "PSTM=1671158464; BIDUPSID=9DE284EE5EA6C5CD5DECB0DAA5563A52; BAIDUID=2F957799E79AEE928D3E809E6D1EE39C:FG=1; BAIDUID_BFESS=2F957799E79AEE928D3E809E6D1EE39C:FG=1; ZFY=sXQlb4DhbjDUWDBjcc3eSCAnTZpCsgRlOUfU:A8zkNZg:C; BDUSS=N1YTJIczE5Nmx3RXhYRERZeTZ4b0x1WDRGdjRZbkdyWktHNGtmZHJZUks5ZUpqSVFBQUFBJCQAAAAAAAAAAAEAAAC0wNEXTFFZTklDSwAAAAAAAAAAAAAAAAAAAAAAAAAAAAAAAAAAAAAAAAAAAAAAAAAAAAAAAAAAAAAAAAAAAAAAAAAAAEpou2NKaLtjUF; BDUSS_BFESS=N1YTJIczE5Nmx3RXhYRERZeTZ4b0x1WDRGdjRZbkdyWktHNGtmZHJZUks5ZUpqSVFBQUFBJCQAAAAAAAAAAAEAAAC0wNEXTFFZTklDSwAAAAAAAAAAAAAAAAAAAAAAAAAAAAAAAAAAAAAAAAAAAAAAAAAAAAAAAAAAAAAAAAAAAAAAAAAAAEpou2NKaLtjUF; BDRCVFR[feWj1Vr5u3D]=I67x6TjHwwYf0; PSINO=7; BA_HECTOR=2g010g20250h2g05848l2gmr1hs8ccl1k; delPer=0; BDORZ=B490B5EBF6F3CD402E515D22BCDA1598; H_PS_PSSID=36552_37971_37647_37552_37512_38018_36920_38034_37990_37935_37900_26350_37881; ZD_ENTRY=google; __bid_n=1843ba4bb98af652e54207; FPTOKEN=wk5mCfUe8IGYSFTc73kb4m6fD/+vPsUudAJDqnD/1gWnWzNd99f1xJPgasKG9KPDa2jfNZiYVKRz/kfXm1MWknI0kq3YZ8OfCPlBzRFVsXvqzMs1sgSq8yZTiNZ/wNe3dqBI/C8m9GONvew4EUEGnWpxEWWAdJwDfFtMlL8IPqxiI0LGW6cw5BJL7MXfhqu8S56gTCIH/sd/bTzJUAyJNgs5XNhDNTbQyBfUvbEwKAxk6+JiG5TfvcqIlQO3l+4Tx2MSePwVzTbUJEq9j5d5RHFn0Lf1nBk8clGF23YtXGPJJ4btjSmSUUd49x9UW1d/5LfqBCLINwhnfTjRD62tBvcvQPrcsQ2O1LDhtLaPoAT7wa8Eaf3t+BoKvb1Lg+xDOQbuGqkhRbXLyFnoclglNw==|nNnTDKo31nfW33fjkn2tPkGoR/daDBVvuL41C5ICxoE=|10|aa0cc876f4e34ae85c70d1fcd84bfc6c; APPGUIDE_10_0_2=1; REALTIME_TRANS_SWITCH=1; FANYI_WORD_SWITCH=1; HISTORY_SWITCH=1; SOUND_SPD_SWITCH=1; SOUND_PREFER_SWITCH=1; Hm_lvt_64ecd82404c51e03dc91cb9e8c025574=1673829065; Hm_lpvt_64ecd82404c51e03dc91cb9e8c025574=1673829263; ab_sr=1.0.1_ZDgzZjYyMGM0M2YzY2VkYzQ3NTMxZjk5ZWU1NThjMGZiN2MyNzFjYmQyOGE3OTRlNjgxZGY3NWVhNjE4MGJhZDk1ZDE5NjUxZWEwNzRjMzRhMTEyYTcwYzVhZmNkOTg2OTc0ZDEyNzNiMTc5NGZlNGU5MzdjMGE5ZDM3YjRlMWU3ZGY1MzY5OTZmODAxZjA4OTE0NWY1NTQ4NGVhNDY4NjEyMzY5ZWYxNTBjZWMwNDkwYzUyZDIwM2I3YWE1MTIx"),
    ("Origin", "https://fanyi.baidu.com"),
    ("Referer", "https://fanyi.baidu.com/"),
    ("Sec-Fetch-Dest", "empty"),
    ("Sec-Fetch-Mode", "cors"),
    ("Sec-Fetch-Site", "same-origin"),
    ("User-Agent", "Mozilla/5.0 (Windows NT 10.0; Win64; x64) AppleWebKit/537.36 (KHTML, like Gecko) Chrome/108.0.0.0 Safari/537.36"),
    ("X-Requested-With", "XMLHttpRequest"),
    ("sec-ch-ua", "\"Not?A_Brand\";v=\"8\", \"Chromium\";v=\"108\", \"Google Chrome\";v=\"108\""),
    ("sec-ch-ua-mobile", "?0"),
    ("sec-ch-ua-platform", "\"Windows\"")
  ]

/-- Go: the request body of `queryBaidu`, the word spliced between two literals. -/
def baiduFormBody (word : String) : String :=
  "from=en&to=zh&query=" ++ word ++ "&transtype=realtime&simple_means_flag=3&sign=54706.276099&token=f03f3ff61fc27157bcf6b3b7050bd6cf&domain=common"

/-- Go: `xs[i]`: a run-time panic when `i` is out of range. -/
def sliceIndex {α : Type} (xs : List α) (i : Nat) : Go α :=
  match xs.get? i with
  | some x => Go.ret x
  | none =>
    goPanic ("runtime error: index out of range [" ++ toString i ++ "] with length "
      ++ toString xs.length)

/-- Go: `func queryBaidu(word string, wg *sync.WaitGroup)`. -/
def queryBaidu (env : Env) (word : String) : Go Unit :=
  withDefer wgDone do
    let data := baiduFormBody word
    let req ← orFatal (httpNewRequest env "POST" "https://fanyi.baidu.com/v2transapi?from=en&to=zh" data)
    let req := setHeaders req baiduHeaders
    let resp ← orFatal (← clientDo env req)
    withDefer bodyClose do
      let bodyText ← orFatal (ioutilReadAll resp.Body)
      let baidurespon ← orFatal (env.unmarshalBaiduResponse bodyText)
      fmtPrintln ["Baidu:"]
      let phEn := (← sliceIndex baidurespon.DictResult.SimpleMeans.Symbols 0).PhEn
      let phAm := (← sliceIndex baidurespon.DictResult.SimpleMeans.Symbols 0).PhAm
      fmtPrintln [word, "UK:", phEn, "US:", phAm]
      forRange baidurespon.DictResult.SimpleMeans.WordMeans (fun part => fmtPrintln [part])

/-- The request `queryBaidu` hands to the transport. -/
def baiduRequest (word : String) : Request :=
  setHeaders
    { Method := "POST", URL := "https://fanyi.baidu.com/v2transapi?from=en&to=zh",
      Body := baiduFormBody word }
    baiduHeaders

/-! ## The process: `main`, its two goroutines and the WaitGroup -/

/-- The two goroutines started by `main`. -/
inductive Gid where
  | baidu
  | caiyun
deriving DecidableEq

/-- One step of a goroutine, as the process sees it. -/
inductive Step where
  /-- The goroutine produces an event. -/
  | event (e : Event)
  /-- The goroutine ends the process with this status. -/
  | halt (code : Nat)

/-- The steps of a goroutine running `g`.  A goroutine that calls `os.Exit(code)` ends
the process with `code`; one whose panic is not recovered ends it with status 2, after
its deferred calls have run. -/
def goroutine (g : Go Unit) : List Step :=
  g.trace.map Step.event ++
    match g.out with
    | Outcome.ok _ => []
    | Outcome.exit code => [Step.halt code]
    | Outcome.panic _ => [Step.halt 2]

/-- The observable state of the process. -/
structure Proc where
  stdout : List String := []
  stderr : List String := []
  /-- The HTTP requests made so far. -/
  sent : List Request := []
  /-- The counter of the WaitGroup `wg`. -/
  wg : Int := 0
  /-- Whether a goroutine has started to panic. -/
  panicking : Bool := false
  /-- The exit status, once the process has ended. -/
  exitCode : Option Nat := none

/-- The effect of one event on the process. -/
def Proc.apply (p : Proc) (e : Event) : Proc :=
  match e with
  | Event.stdout s => { p with stdout := p.stdout ++ [s] }
  | Event.stderr s => { p with stderr := p.stderr ++ [s] }
  | Event.send r => { p with sent := p.sent ++ [r] }
  | Event.closeBody => p
  | Event.wgDone => { p with wg := p.wg - 1 }
  | Event.panicking _ => { p with panicking := true }

/-- The process together with what its two goroutines have done and have still to do. -/
structure Sys where
  proc : Proc
  /-- The steps run so far, oldest first, each with the goroutine that ran it. -/
  log : List (Gid × Step) := []
  /-- The steps the goroutine of `queryBaidu` has still to run. -/
  baidu : List Step
  /-- The steps the goroutine of `queryCaiyun` has still to run. -/
  caiyun : List Step

/-- Run one step of goroutine `g`. -/
def execStep (g : Gid) (st : Step) (s : Sys) : Sys :=
  match st with
  | Step.event e => { s with proc := s.proc.apply e, log := s.log ++ [(g, st)] }
  | Step.halt code =>
    { s with proc := { s.proc with exitCode := some code }, log := s.log ++ [(g, st)] }

/-- One decision of the scheduler: the goroutine whose turn it is runs its next step
(`true` for `queryBaidu`, `false` for `queryCaiyun`); when that goroutine has finished
the other one runs.  When both have finished and `main` is still blocked, the Go
run-time reports a deadlock and ends the process with status 2. -/
def schedule (turn : Bool) (s : Sys) : Sys :=
  match turn, s.baidu, s.caiyun with
  | true, st :: rest, _ => execStep Gid.baidu st { s with baidu := rest }
  | true, [], st :: rest => execStep Gid.caiyun st { s with caiyun := rest }
  | false, _, st :: rest => execStep Gid.caiyun st { s with caiyun := rest }
  | false, st :: rest, [] => execStep Gid.baidu st { s with baidu := rest }
  | _, [], [] => { s with proc := { s.proc with exitCode := some 2 } }

/-- Go: `wg.Wait()` followed by the return of `main`.  While the counter is not zero
`main` is blocked and the goroutines run, one step at a time, in the order `sched`
dictates.  Once the counter is zero `Wait` can return, `main` with it, and the process
then ends with status 0 whatever the goroutines have still to do.  Whether that happens
before a goroutine runs another step is up to the scheduler too: the next entry of
`sched` says whether `main` returns (`true`) or a goroutine runs first (`false`, the
entry after it saying which one).  With both goroutines finished `main` returns.  A
step that ends the process stops everything. -/
def wgWait (fuel : Nat) (sched : List Bool) (s : Sys) : Sys :=
  match fuel with
  | 0 => s
  | fuel + 1 =>
    if s.proc.exitCode.isSome then s
    else if s.proc.wg = 0 then
      if sched.headD true || (s.baidu.isEmpty && s.caiyun.isEmpty) then
        { s with proc := { s.proc with exitCode := some 0 } }
      else wgWait fuel sched.tail.tail (schedule (sched.tail.headD true) s)
    else wgWait fuel sched.tail (schedule (sched.headD true) s)

/-- The text `main` prints when the argument count is wrong. -/
def usageText : String := "usage: simpleDict WORD\nexample: simpleDict hello\n\t\t"

/-- Go: `func main()`.  `args` is `os.Args`; `sched` is the order in which the
scheduler lets the two goroutines run. -/
def main (env : Env) (args : List String) (sched : List Bool) : Sys :=
  if args.length != 2 then
    { proc := { stderr := [usageText], exitCode := some 1 }, baidu := [], caiyun := [] }
  else
    let word := args.getD 1 ""
    let baidu := goroutine (queryBaidu env word)
    let caiyun := goroutine (queryCaiyun env word)
    wgWait (baidu.length + caiyun.length + 1) sched
      { proc := { wg := 2 }, baidu := baidu, caiyun := caiyun }

/-- The state of the process right after `wg.Add(2)` and the two `go` statements of
`main` for `word`. -/
def started (env : Env) (word : String) : Sys :=
  { proc := { wg := 2 },
    baidu := goroutine (queryBaidu env word),
    caiyun := goroutine (queryCaiyun env word) }

/-- The number of run-time panics started. -/
def panicCount (t : List Event) : Nat :=
  (t.filter (fun e => match e with | Event.panicking _ => true | _ => false)).length

/-- The events among a list of steps. -/
def stepEvents (steps : List Step) : List Event :=
  steps.filterMap (fun st => match st with | Step.event e => some e | Step.halt _ => none)

/-- The steps goroutine `g` has run, read off the log. -/
def stepsOf (g : Gid) (log : List (Gid × Step)) : List Step :=
  (log.filter (fun entry => entry.1 = g)).map Prod.snd

/-- The events of the whole log, whichever goroutine produced them. -/
def logEvents (log : List (Gid × Step)) : List Event :=
  stepEvents (log.map Prod.snd)

/-- The number of `wg.Done()` calls goroutine `g` has made, read off the log. -/
def doneBy (g : Gid) (log : List (Gid × Step)) : Nat :=
  doneCount (stepEvents (stepsOf g log))

/-- The text goroutine `g` has written to standard output, read off the log. -/
def stdoutBy (g : Gid) (log : List (Gid × Step)) : List String :=
  stdoutOf (stepEvents (stepsOf g log))

/-- How a client uses the WaitGroup.  A client that returns or panics has called
`wg.Done()` once, as its last event, and a panic has started before that call exactly
when it panics; a client that ends in `os.Exit` has not called `wg.Done()`, and its exit
status is not 0. -/
def ClientShape (g : Go Unit) : Prop :=
  match g.out with
  | Outcome.ok _ =>
    ∃ pre, g.trace = pre ++ [Event.wgDone] ∧ doneCount pre = 0 ∧ panicCount pre = 0
  | Outcome.exit code => code ≠ 0 ∧ doneCount g.trace = 0
  | Outcome.panic _ =>
    ∃ pre, g.trace = pre ++ [Event.wgDone] ∧ doneCount pre = 0 ∧ 0 < panicCount pre

/-- What links a state of the process to the two goroutines `a` (for `queryBaidu`) and
`c` (for `queryCaiyun`) it was started with: each goroutine's steps are those it has run
followed by those it has still to run, and the process is what the logged events make
of the state after `wg.Add(2)`. -/
structure Inv (a c : List Step) (s : Sys) : Prop where
  baidu_steps : stepsOf Gid.baidu s.log ++ s.baidu = a
  caiyun_steps : stepsOf Gid.caiyun s.log ++ s.caiyun = c
  replay : ({ s.proc with exitCode := none } : Proc)
    = (logEvents s.log).foldl Proc.apply { wg := 2 }

/-! ## Decoding an `application/x-www-form-urlencoded` body

The receiving side of the request body of `queryBaidu`: the body is split at every `&`,
empty pieces are dropped, each piece is cut at its first `=` into a name and a value,
and in both `+` stands for a space and `%XY` for the byte with hexadecimal code `XY`. -/

/-- The pieces of `s` between the occurrences of `&`. -/
def splitAmp (s : List Char) : List (List Char) :=
  match s with
  | [] => [[]]
  | c :: cs =>
    if c = '&' then [] :: splitAmp cs
    else
      match splitAmp cs with
      | [] => [[c]]
      | piece :: pieces => (c :: piece) :: pieces

/-- Cut `s` at its first `=`: what stands before it and what stands after it; without
any `=` the second part is empty. -/
def cutEq (s : List Char) : List Char × List Char :=
  match s with
  | [] => ([], [])
  | c :: cs => if c = '=' then ([], cs) else ((c :: (cutEq cs).1), (cutEq cs).2)

/-- The value of a hexadecimal digit. -/
def hexDigit (c : Char) : Option Nat :=
  if '0' ≤ c ∧ c ≤ '9' then some (c.toNat - '0'.toNat)
  else if 'a' ≤ c ∧ c ≤ 'f' then some (c.toNat - 'a'.toNat + 10)
  else if 'A' ≤ c ∧ c ≤ 'F' then some (c.toNat - 'A'.toNat + 10)
  else none

/-- Undo the form encoding of a name or value: `+` is a space, `%XY` is the character
with code `XY`, and a `%` that does not start such a group stands for itself. -/
def formUnescape (s : List Char) : List Char :=
  match s with
  | [] => []
  | c :: cs =>
    let plain := c :: formUnescape cs
    if c = '+' then ' ' :: formUnescape cs
    else if c = '%' then
      match cs with
      | x :: y :: rest =>
        match hexDigit x, hexDigit y with
        | some hi, some lo => Char.ofNat (16 * hi + lo) :: formUnescape rest
        | _, _ => plain
      | _ => plain
    else plain

/-- The name and value pairs of a form body, in the order in which they stand in it. -/
def parseForm (body : String) : List (String × String) :=
  ((splitAmp body.data).filter (fun piece => !piece.isEmpty)).map
    (fun piece => (String.mk (formUnescape (cutEq piece).1),
      String.mk (formUnescape (cutEq piece).2)))

/-- The eight fields the form body of `queryBaidu` is meant to carry for `word`. -/
def baiduFormFields (word : String) : List (String × String) :=
  [("from", "en"), ("to", "zh"), ("query", word), ("transtype", "realtime"),
    ("simple_means_flag", "3"), ("sign", "54706.276099"),
    ("token", "f03f3ff61fc27157bcf6b3b7050bd6cf"), ("domain", "common")]

/-! ## Expected output -/

/-- The lines of the summary `queryCaiyun` prints for `word` and the decoded response. -/
def caiyunSummary (word : String) (d : DictResponse) : List String :=
  ["caiyun\n",
    word ++ " UK: " ++ d.Dictionary.Prons.En ++ " US: " ++ d.Dictionary.Prons.EnUs ++ "\n"]
    ++ d.Dictionary.Explanations.map (fun item => item ++ "\n")

/-- The lines of the summary `queryBaidu` prints for `word`, the first phonetic entry
and the word meanings. -/
def baiduSummary (word : String) (s0 : BaiduResponse.SymbolT) (wordMeans : List String) :
    List String :=
  ["Baidu:\n", word ++ " UK: " ++ s0.PhEn ++ " US: " ++ s0.PhAm ++ "\n"]
    ++ wordMeans.map (fun part => part ++ "\n")

/-! ## Sample environments -/

/-- An environment in which request construction succeeds, the transport answers every
request with `resp`, and the two decoders give `d` and `r` for every body. -/
def cannedEnv (resp : Response) (d : Except String DictResponse)
    (r : Except String BaiduResponse) : Env where
  jsonMarshal := fun request =>
    Except.ok ("\x7b\"trans_type\":\"" ++ request.TransType ++ "\",\"source\":\""
      ++ request.Source ++ "\",\"user_id\":\"" ++ request.UserID ++ "\"\x7d")
  newRequestError := fun _ _ => none
  clientDo := fun _ => Except.ok resp
  unmarshalDictResponse := fun _ => d
  unmarshalBaiduResponse := fun _ => r

/-- The decoded form of the Source-A fixture for "hello". -/
def helloDictResponse : DictResponse :=
  { Dictionary :=
      { Prons := { En := "h?\x27l??", EnUs := "?h?lo?" },
        Explanations := ["int. 表示问候"] } }

/-- A decoded Source-B response with two phonetic entries and two word meanings. -/
def helloBaiduResponse : BaiduResponse :=
  { DictResult :=
      { SimpleMeans :=
          { WordMeans := ["你好", "喂"],
            Symbols := [{ PhEn := "hə'ləʊ", PhAm := "həˈloʊ" }, { PhEn := "x", PhAm := "y" }] } } }

/-- A decoded Source-B response without phonetic entries. -/
def noSymbolsBaiduResponse : BaiduResponse :=
  { DictResult := { SimpleMeans := { WordMeans := ["你好", "喂"], Symbols := [] } } }

/-- A response with the given status and the body `ok`. -/
def plainResponse (status : Int) : Response :=
  { StatusCode := status, Body := Except.ok "ok" }

/-- Every request is answered with status 200 and both decoders succeed. -/
def helloEnv : Env :=
  cannedEnv (plainResponse 200) (Except.ok helloDictResponse) (Except.ok helloBaiduResponse)

/-- Every request is answered with status 500, although the body would decode. -/
def status500Env : Env :=
  cannedEnv (plainResponse 500) (Except.ok helloDictResponse) (Except.ok helloBaiduResponse)

/-- Every request is answered with status 200; Source B has no phonetic entries. -/
def noSymbolsEnv : Env :=
  cannedEnv (plainResponse 200) (Except.ok helloDictResponse) (Except.ok noSymbolsBaiduResponse)

/-- Every request is answered with status 200 and the body `{}`, which the decoder of
`DictResponse` turns into the zero value. -/
def emptyObjectEnv : Env :=
  { cannedEnv { StatusCode := 200, Body := Except.ok "\x7b\x7d" } (Except.ok {}) (Except.ok {}) with
    unmarshalDictResponse := fun body =>
      if body = "\x7b\x7d" then Except.ok {} else Except.error "unexpected end of JSON input" }

/-- The response `r` with its list of phonetic entries replaced. -/
def BaiduResponse.withSymbols (r : BaiduResponse) (symbols : List BaiduResponse.SymbolT) :
    BaiduResponse :=
  { r with
    DictResult :=
      { r.DictResult with
        SimpleMeans := { r.DictResult.SimpleMeans with Symbols := symbols } } }

/-- The environment `env` with a Source-B decoder that gives `r` for every body. -/
def Env.withBaiduResponse (env : Env) (r : BaiduResponse) : Env :=
  { env with unmarshalBaiduResponse := fun _ => Except.ok r }

/-! ## Basic facts about the execution model -/

theorem fmtSprintln_one (a : String) : fmtSprintln [a] = a ++ "\n" := by
  simp [fmtSprintln, String.intercalate, String.intercalate.go]

theorem fmtSprintln_pron (w en us : String) :
    fmtSprintln [w, "UK:", en, "US:", us] = w ++ " UK: " ++ en ++ " US: " ++ us ++ "\n" := by
  have h1 : (" UK: " : String) = " " ++ ("UK:" ++ " ") := by decide
  have h2 : (" US: " : String) = " " ++ ("US:" ++ " ") := by decide
  rw [h1, h2]
  simp [fmtSprintln, String.intercalate, String.intercalate.go, String.append_assoc]

@[simp] theorem fmtPrintln_trace (args : List String) :
    (fmtPrintln args).trace = [Event.stdout (fmtSprintln args)] := rfl

@[simp] theorem fmtPrintln_out (args : List String) :
    (fmtPrintln args).out = Outcome.ok () := rfl

@[simp] theorem wgDone_trace : wgDone.trace = [Event.wgDone] := rfl

@[simp] theorem wgDone_out : wgDone.out = Outcome.ok () := rfl

@[simp] theorem bodyClose_trace : bodyClose.trace = [Event.closeBody] := rfl

@[simp] theorem bodyClose_out : bodyClose.out = Outcome.ok () := rfl

@[simp] theorem logFatal_trace {α : Type} (msg : String) :
    (logFatal msg : Go α).trace = [Event.stderr (logLine msg)] := rfl

@[simp] theorem logFatal_out {α : Type} (msg : String) :
    (logFatal msg : Go α).out = Outcome.exit 1 := rfl

@[simp] theorem goPanic_trace {α : Type} (msg : String) :
    (goPanic msg : Go α).trace = [Event.panicking msg] := rfl

@[simp] theorem goPanic_out {α : Type} (msg : String) :
    (goPanic msg : Go α).out = Outcome.panic msg := rfl

@[simp] theorem ret_trace {α : Type} (a : α) : (Go.ret a).trace = [] := rfl

@[simp] theorem ret_out {α : Type} (a : α) : (Go.ret a).out = Outcome.ok a := rfl

@[simp] theorem forRange_println_trace (items : List String) :
    (forRange items (fun item => fmtPrintln [item])).trace
      = items.map (fun item => Event.stdout (item ++ "\n")) := by
  induction items with
  | nil => rfl
  | cons x xs ih =>
    rw [forRange]
    simp [Go.seq, ih, fmtSprintln_one]

@[simp] theorem forRange_println_out (items : List String) :
    (forRange items (fun item => fmtPrintln [item])).out = Outcome.ok () := by
  induction items with
  | nil => rfl
  | cons x xs ih =>
    rw [forRange]
    simp [Go.seq, ih]

@[simp] theorem stdoutOf_nil : stdoutOf [] = [] := rfl

@[simp] theorem stdoutOf_append (a b : List Event) :
    stdoutOf (a ++ b) = stdoutOf a ++ stdoutOf b := by simp [stdoutOf]

@[simp] theorem stdoutOf_cons (e : Event) (t : List Event) :
    stdoutOf (e :: t) = (match e with | Event.stdout s => [s] | _ => []) ++ stdoutOf t := by
  cases e <;> simp [stdoutOf]

@[simp] theorem stdoutOf_map_stdout (xs : List String) (f : String → String) :
    stdoutOf (xs.map (fun x => Event.stdout (f x))) = xs.map f := by
  induction xs with
  | nil => rfl
  | cons x xs ih => simp [ih]

@[simp] theorem stdoutOf_map (xs : List String) : stdoutOf (xs.map Event.stdout) = xs := by
  induction xs with
  | nil => rfl
  | cons x xs ih => simp [ih]

@[simp] theorem doneCount_nil : doneCount [] = 0 := rfl

@[simp] theorem doneCount_append (a b : List Event) :
    doneCount (a ++ b) = doneCount a + doneCount b := by simp [doneCount]

@[simp] theorem doneCount_cons (e : Event) (t : List Event) :
    doneCount (e :: t) = (match e with | Event.wgDone => 1 | _ => 0) + doneCount t := by
  cases e <;> simp [doneCount, Nat.add_comm]

@[simp] theorem doneCount_map (xs : List String) : doneCount (xs.map Event.stdout) = 0 := by
  induction xs with
  | nil => rfl
  | cons x xs ih => simp [ih]

@[simp] theorem doneCount_map_stdout (xs : List String) (f : String → String) :
    doneCount (xs.map (fun x => Event.stdout (f x))) = 0 := by
  induction xs with
  | nil => rfl
  | cons x xs ih => simp [ih]

/-- The whole run of `queryCaiyun` on a 200 response that decodes. -/
theorem queryCaiyun_success (env : Env) (w buf body : String) (resp : Response)
    (d : DictResponse)
    (hm : env.jsonMarshal { TransType := "en2zh", Source := w } = Except.ok buf)
    (hn : env.newRequestError "POST" "https://api.interpreter.caiyunai.com/v1/dict" = none)
    (hd : env.clientDo (caiyunRequest buf) = Except.ok resp)
    (hs : resp.StatusCode = 200)
    (hb : resp.Body = Except.ok body)
    (hu : env.unmarshalDictResponse body = Except.ok d) :
    (queryCaiyun env w).trace
        = [Event.send (caiyunRequest buf)] ++ (caiyunSummary w d).map Event.stdout
            ++ [Event.closeBody, Event.wgDone]
      ∧ (queryCaiyun env w).out = Outcome.ok () := by
  unfold caiyunRequest at hd
  simp [queryCaiyun, withDefer, bind, Go.seq, orFatal, hm, httpNewRequest, hn, clientDo, hd,
    ioutilReadAll, hb, hs, hu, pure, fmtSprintln_one, fmtSprintln_pron, caiyunSummary,
    caiyunRequest]


/-- The run of `queryCaiyun` on a response whose status is not 200. -/
theorem queryCaiyun_bad_status (env : Env) (w buf : String) (resp : Response)
    (hm : env.jsonMarshal { TransType := "en2zh", Source := w } = Except.ok buf)
    (hn : env.newRequestError "POST" "https://api.interpreter.caiyunai.com/v1/dict" = none)
    (hd : env.clientDo (caiyunRequest buf) = Except.ok resp)
    (hs : resp.StatusCode ≠ 200) :
    stdoutOf (queryCaiyun env w).trace = [] ∧ (queryCaiyun env w).out = Outcome.exit 1
      ∧ doneCount (queryCaiyun env w).trace = 0 := by
  unfold caiyunRequest at hd
  cases hb : resp.Body <;>
    simp [queryCaiyun, withDefer, bind, Go.seq, orFatal, hm, httpNewRequest, hn, clientDo, hd,
      ioutilReadAll, hb, hs, pure]

/-- The run of `queryCaiyun` on a 200 response that does not decode. -/
theorem queryCaiyun_bad_body (env : Env) (w buf body e : String) (resp : Response)
    (hm : env.jsonMarshal { TransType := "en2zh", Source := w } = Except.ok buf)
    (hn : env.newRequestError "POST" "https://api.interpreter.caiyunai.com/v1/dict" = none)
    (hd : env.clientDo (caiyunRequest buf) = Except.ok resp)
    (hs : resp.StatusCode = 200)
    (hb : resp.Body = Except.ok body)
    (hu : env.unmarshalDictResponse body = Except.error e) :
    stdoutOf (queryCaiyun env w).trace = [] ∧ (queryCaiyun env w).out = Outcome.exit 1
      ∧ doneCount (queryCaiyun env w).trace = 0 := by
  unfold caiyunRequest at hd
  simp [queryCaiyun, withDefer, bind, Go.seq, orFatal, hm, httpNewRequest, hn, clientDo, hd,
    ioutilReadAll, hb, hs, hu, pure]

/-- The whole run of `queryBaidu` on a response that decodes with a phonetic entry. -/
theorem queryBaidu_success (env : Env) (w body : String) (resp : Response)
    (r : BaiduResponse) (s0 : BaiduResponse.SymbolT) (rest : List BaiduResponse.SymbolT)
    (hn : env.newRequestError "POST" "https://fanyi.baidu.com/v2transapi?from=en&to=zh" = none)
    (hd : env.clientDo (baiduRequest w) = Except.ok resp)
    (hb : resp.Body = Except.ok body)
    (hu : env.unmarshalBaiduResponse body = Except.ok r)
    (hsym : r.DictResult.SimpleMeans.Symbols = s0 :: rest) :
    (queryBaidu env w).trace
        = [Event.send (baiduRequest w)]
            ++ (baiduSummary w s0 r.DictResult.SimpleMeans.WordMeans).map Event.stdout
            ++ [Event.closeBody, Event.wgDone]
      ∧ (queryBaidu env w).out = Outcome.ok () := by
  unfold baiduRequest at hd
  simp [queryBaidu, withDefer, bind, Go.seq, orFatal, httpNewRequest, hn, clientDo, hd,
    ioutilReadAll, hb, hu, hsym, pure, sliceIndex, fmtSprintln_one, fmtSprintln_pron,
    baiduSummary, baiduRequest]

/-- The whole run of `queryBaidu` on a response that decodes without phonetic entry. -/
theorem queryBaidu_no_symbols (env : Env) (w body : String) (resp : Response)
    (r : BaiduResponse)
    (hn : env.newRequestError "POST" "https://fanyi.baidu.com/v2transapi?from=en&to=zh" = none)
    (hd : env.clientDo (baiduRequest w) = Except.ok resp)
    (hb : resp.Body = Except.ok body)
    (hu : env.unmarshalBaiduResponse body = Except.ok r)
    (hsym : r.DictResult.SimpleMeans.Symbols = []) :
    (queryBaidu env w).trace
        = [Event.send (baiduRequest w), Event.stdout "Baidu:\n",
            Event.panicking "runtime error: index out of range [0] with length 0",
            Event.closeBody, Event.wgDone]
      ∧ (queryBaidu env w).out
          = Outcome.panic "runtime error: index out of range [0] with length 0" := by
  unfold baiduRequest at hd
  have hmsg : "runtime error: index out of range [" ++ toString 0 ++ "] with length "
      ++ toString 0 = "runtime error: index out of range [0] with length 0" := by decide
  simp [queryBaidu, withDefer, bind, Go.seq, orFatal, httpNewRequest, hn, clientDo, hd,
    ioutilReadAll, hb, hu, hsym, pure, sliceIndex, fmtSprintln_one, baiduRequest, hmsg]

/-! ## The clients, claim by claim -/

/-- C1: on a Source-A response with status 200 whose body decodes to `d`, `queryCaiyun`
writes to standard output exactly the header line `caiyun`, then the line made of the
word, ` UK: `, `d.Dictionary.Prons.En`, ` US: ` and `d.Dictionary.Prons.EnUs`, then one
line per element of `d.Dictionary.Explanations`, unchanged and in order: that is
`2 + len(Explanations)` lines. -/
theorem queryCaiyun_prints_summary (env : Env) (w buf body : String) (resp : Response)
    (d : DictResponse)
    (hm : env.jsonMarshal { TransType := "en2zh", Source := w } = Except.ok buf)
    (hn : env.newRequestError "POST" "https://api.interpreter.caiyunai.com/v1/dict" = none)
    (hd : env.clientDo (caiyunRequest buf) = Except.ok resp)
    (hs : resp.StatusCode = 200)
    (hb : resp.Body = Except.ok body)
    (hu : env.unmarshalDictResponse body = Except.ok d) :
    stdoutOf (queryCaiyun env w).trace
        = ["caiyun\n",
            w ++ " UK: " ++ d.Dictionary.Prons.En ++ " US: " ++ d.Dictionary.Prons.EnUs ++ "\n"]
          ++ d.Dictionary.Explanations.map (fun item => item ++ "\n")
      ∧ (stdoutOf (queryCaiyun env w).trace).length = 2 + d.Dictionary.Explanations.length := by
  have h := (queryCaiyun_success env w buf body resp d hm hn hd hs hb hu).1
  rw [h]
  simp only [stdoutOf_append, stdoutOf_cons, stdoutOf_nil, stdoutOf_map]
  simp [caiyunSummary]
  omega

/-- C1 at the fixture of the specification: the word `hello` gives the header, the
line `hello UK: h?'l?? US: ?h?lo?` and right after it the only explanation. -/
theorem queryCaiyun_prints_summary_witness :
    stdoutOf (queryCaiyun helloEnv "hello").trace
      = ["caiyun\n", "hello UK: h?\x27l?? US: ?h?lo?\n", "int. 表示问候\n"] :=
  (queryCaiyun_prints_summary helloEnv "hello" _ "ok" (plainResponse 200) helloDictResponse
    rfl rfl rfl rfl rfl rfl).1.trans (by decide)

/-- C2: on a decoded Source-B response whose `symbols` list is not empty, `queryBaidu`
writes exactly the header line `Baidu:`, then the line made of the word, ` UK: `,
`symbols[0].ph_en`, ` US: ` and `symbols[0].ph_am`, then one line per element of
`word_means` in order; replacing the entries of `symbols` after the first one by any
others leaves the output unchanged. -/
theorem queryBaidu_prints_first_symbol (env : Env) (w body : String) (resp : Response)
    (r : BaiduResponse) (s0 : BaiduResponse.SymbolT) (rest : List BaiduResponse.SymbolT)
    (hn : env.newRequestError "POST" "https://fanyi.baidu.com/v2transapi?from=en&to=zh" = none)
    (hd : env.clientDo (baiduRequest w) = Except.ok resp)
    (hb : resp.Body = Except.ok body)
    (hu : env.unmarshalBaiduResponse body = Except.ok r)
    (hsym : r.DictResult.SimpleMeans.Symbols = s0 :: rest) :
    stdoutOf (queryBaidu env w).trace
        = ["Baidu:\n", w ++ " UK: " ++ s0.PhEn ++ " US: " ++ s0.PhAm ++ "\n"]
          ++ r.DictResult.SimpleMeans.WordMeans.map (fun part => part ++ "\n")
      ∧ ∀ others : List BaiduResponse.SymbolT,
          stdoutOf (queryBaidu (env.withBaiduResponse (r.withSymbols (s0 :: others))) w).trace
            = stdoutOf (queryBaidu env w).trace := by
  have h := (queryBaidu_success env w body resp r s0 rest hn hd hb hu hsym).1
  refine ⟨?_, ?_⟩
  · rw [h]
    simp only [stdoutOf_append, stdoutOf_cons, stdoutOf_nil, stdoutOf_map]
    simp [baiduSummary]
  · intro others
    have h2 := (queryBaidu_success (env.withBaiduResponse (r.withSymbols (s0 :: others))) w body
      resp (r.withSymbols (s0 :: others)) s0 others hn hd hb rfl rfl).1
    rw [h, h2]
    rfl

/-- C2 on a response with two phonetic entries: only the first one is shown. -/
theorem queryBaidu_prints_first_symbol_witness :
    stdoutOf (queryBaidu helloEnv "hello").trace
      = ["Baidu:\n", "hello UK: hə'ləʊ US: həˈloʊ\n", "你好\n", "喂\n"] :=
  (queryBaidu_prints_first_symbol helloEnv "hello" "ok" (plainResponse 200) helloBaiduResponse
    _ _ rfl rfl rfl rfl rfl).1.trans (by decide)

/-- C3: on a decoded Source-B response whose `symbols` list is empty, `queryBaidu`
panics at the index-0 access, which ends the process with status 2; the header line
`Baidu:` is the only text it has written to standard output, whatever `word_means`
holds. -/
theorem queryBaidu_empty_symbols_panics (env : Env) (w body : String) (resp : Response)
    (r : BaiduResponse)
    (hn : env.newRequestError "POST" "https://fanyi.baidu.com/v2transapi?from=en&to=zh" = none)
    (hd : env.clientDo (baiduRequest w) = Except.ok resp)
    (hb : resp.Body = Except.ok body)
    (hu : env.unmarshalBaiduResponse body = Except.ok r)
    (hsym : r.DictResult.SimpleMeans.Symbols = []) :
    stdoutOf (queryBaidu env w).trace = ["Baidu:\n"]
      ∧ (queryBaidu env w).out
          = Outcome.panic "runtime error: index out of range [0] with length 0"
      ∧ (goroutine (queryBaidu env w)).getLast? = some (Step.halt 2) := by
  obtain ⟨ht, ho⟩ := queryBaidu_no_symbols env w body resp r hn hd hb hu hsym
  refine ⟨?_, ho, ?_⟩
  · rw [ht]
    simp
  · simp [goroutine, ho]

/-- C3 on a response with two word meanings and no phonetic entry. -/
theorem queryBaidu_empty_symbols_panics_witness :
    stdoutOf (queryBaidu noSymbolsEnv "hello").trace = ["Baidu:\n"]
      ∧ (queryBaidu noSymbolsEnv "hello").out
          = Outcome.panic "runtime error: index out of range [0] with length 0"
      ∧ (goroutine (queryBaidu noSymbolsEnv "hello")).getLast? = some (Step.halt 2) :=
  queryBaidu_empty_symbols_panics noSymbolsEnv "hello" "ok" (plainResponse 200)
    noSymbolsBaiduResponse rfl rfl rfl rfl rfl

/-- C4, the code at a failing input: the response has status 500 and a body that decodes
with a phonetic entry; `queryBaidu` never looks at the status, prints its whole summary
and returns normally. -/
theorem queryBaidu_status_500_prints :
    stdoutOf (queryBaidu status500Env "hello").trace
        = ["Baidu:\n", "hello UK: hə'ləʊ US: həˈloʊ\n", "你好\n", "喂\n"]
      ∧ (queryBaidu status500Env "hello").out = Outcome.ok () := by
  obtain ⟨ht, ho⟩ := queryBaidu_success status500Env "hello" "ok" (plainResponse 500)
    helloBaiduResponse _ _ rfl rfl rfl rfl rfl
  refine ⟨?_, ho⟩
  rw [ht]
  decide

/-- C5: on a Source-A response whose status is not a 2xx status, `queryCaiyun` ends the
process through `log.Fatal` (status 1) and has written nothing to standard output,
whatever the body is. -/
theorem queryCaiyun_non_success_status (env : Env) (w buf : String) (resp : Response)
    (hm : env.jsonMarshal { TransType := "en2zh", Source := w } = Except.ok buf)
    (hn : env.newRequestError "POST" "https://api.interpreter.caiyunai.com/v1/dict" = none)
    (hd : env.clientDo (caiyunRequest buf) = Except.ok resp)
    (hs : resp.StatusCode < 200 ∨ 300 ≤ resp.StatusCode) :
    stdoutOf (queryCaiyun env w).trace = []
      ∧ (queryCaiyun env w).out = Outcome.exit 1
      ∧ (goroutine (queryCaiyun env w)).getLast? = some (Step.halt 1) := by
  have hne : resp.StatusCode ≠ 200 := by omega
  obtain ⟨h1, h2, _⟩ := queryCaiyun_bad_status env w buf resp hm hn hd hne
  refine ⟨h1, h2, ?_⟩
  simp [goroutine, h2]

/-- C5 at status 500 with a body that would decode. -/
theorem queryCaiyun_non_success_status_witness :
    stdoutOf (queryCaiyun status500Env "hello").trace = []
      ∧ (queryCaiyun status500Env "hello").out = Outcome.exit 1
      ∧ (goroutine (queryCaiyun status500Env "hello")).getLast? = some (Step.halt 1) :=
  queryCaiyun_non_success_status status500Env "hello" _ (plainResponse 500) rfl rfl rfl
    (Or.inr (by decide))

/-- C10: once the exchange has given a response and its body has been read,
`queryCaiyun` writes its summary exactly when the status is 200 and the body decodes;
otherwise it ends the process through `log.Fatal` having written nothing to standard
output.  So status 201 and status 204 are failures, and a 200 response with the body
`{}`, decoded to the zero value, prints the header and the word with empty
pronunciations and no definition line. -/
theorem queryCaiyun_all_or_nothing (env : Env) (w buf body : String) (resp : Response)
    (hm : env.jsonMarshal { TransType := "en2zh", Source := w } = Except.ok buf)
    (hn : env.newRequestError "POST" "https://api.interpreter.caiyunai.com/v1/dict" = none)
    (hd : env.clientDo (caiyunRequest buf) = Except.ok resp)
    (hb : resp.Body = Except.ok body) :
    (stdoutOf (queryCaiyun env w).trace ≠ []
        ↔ resp.StatusCode = 200 ∧ ∃ d, env.unmarshalDictResponse body = Except.ok d)
      ∧ (∀ d, resp.StatusCode = 200 → env.unmarshalDictResponse body = Except.ok d →
          stdoutOf (queryCaiyun env w).trace = caiyunSummary w d
            ∧ (queryCaiyun env w).out = Outcome.ok ())
      ∧ (¬ (resp.StatusCode = 200 ∧ ∃ d, env.unmarshalDictResponse body = Except.ok d) →
          stdoutOf (queryCaiyun env w).trace = []
            ∧ (queryCaiyun env w).out = Outcome.exit 1)
      ∧ (resp.StatusCode = 201 ∨ resp.StatusCode = 204 →
          stdoutOf (queryCaiyun env w).trace = []
            ∧ (queryCaiyun env w).out = Outcome.exit 1)
      ∧ (resp.StatusCode = 200 → body = "\x7b\x7d" →
          env.unmarshalDictResponse "\x7b\x7d" = Except.ok {} →
          stdoutOf (queryCaiyun env w).trace = ["caiyun\n", w ++ " UK:  US: \n"]
            ∧ (queryCaiyun env w).out = Outcome.ok ()) := by
  have hgood : ∀ d, resp.StatusCode = 200 → env.unmarshalDictResponse body = Except.ok d →
      stdoutOf (queryCaiyun env w).trace = caiyunSummary w d
        ∧ (queryCaiyun env w).out = Outcome.ok () := by
    intro d hs hu
    obtain ⟨ht, ho⟩ := queryCaiyun_success env w buf body resp d hm hn hd hs hb hu
    refine ⟨?_, ho⟩
    rw [ht]
    simp only [stdoutOf_append, stdoutOf_cons, stdoutOf_nil, stdoutOf_map]
    simp
  have hbad : ¬ (resp.StatusCode = 200 ∧ ∃ d, env.unmarshalDictResponse body = Except.ok d) →
      stdoutOf (queryCaiyun env w).trace = []
        ∧ (queryCaiyun env w).out = Outcome.exit 1 := by
    intro hnot
    by_cases hs : resp.StatusCode = 200
    · cases hu : env.unmarshalDictResponse body with
      | error e =>
        obtain ⟨h1, h2, _⟩ := queryCaiyun_bad_body env w buf body e resp hm hn hd hs hb hu
        exact ⟨h1, h2⟩
      | ok d => exact absurd ⟨hs, d, hu⟩ hnot
    · obtain ⟨h1, h2, _⟩ := queryCaiyun_bad_status env w buf resp hm hn hd hs
      exact ⟨h1, h2⟩
  refine ⟨⟨?_, ?_⟩, hgood, hbad, ?_, ?_⟩
  · intro hne
    by_contra hnot
    exact hne (hbad hnot).1
  · rintro ⟨hs, d, hu⟩
    rw [(hgood d hs hu).1]
    simp [caiyunSummary]
  · intro hs
    apply hbad
    rintro ⟨h200, _⟩
    omega
  · intro hs hbody hu
    subst hbody
    obtain ⟨h1, h2⟩ := hgood {} hs hu
    refine ⟨?_, h2⟩
    rw [h1]
    have hline : w ++ " UK: " ++ " US: " ++ "\n" = w ++ " UK:  US: \n" := by
      have hlit : (" UK:  US: \n" : String) = " UK: " ++ (" US: " ++ "\n") := by decide
      rw [hlit]
      simp only [String.append_assoc]
    simp [caiyunSummary, hline]

/-- C10 on a 200 response with the body `{}`: the header, then the word with empty
pronunciations, and nothing else. -/
theorem queryCaiyun_all_or_nothing_witness :
    stdoutOf (queryCaiyun emptyObjectEnv "hello").trace = ["caiyun\n", "hello UK:  US: \n"]
      ∧ (queryCaiyun emptyObjectEnv "hello").out = Outcome.ok () :=
  (queryCaiyun_all_or_nothing emptyObjectEnv "hello" _ "\x7b\x7d"
    { StatusCode := 200, Body := Except.ok "\x7b\x7d" } rfl rfl rfl rfl).2.2.2.2 rfl rfl rfl

/-! ## The form body of `queryBaidu` -/

theorem splitAmp_ne_nil (s : List Char) : splitAmp s ≠ [] := by
  cases s with
  | nil => simp [splitAmp]
  | cons c cs =>
    unfold splitAmp
    split
    · simp
    · split <;> simp

theorem splitAmp_segment (seg : List Char) (hseg : ∀ c ∈ seg, c ≠ '&') (rest : List Char) :
    splitAmp (seg ++ '&' :: rest) = seg :: splitAmp rest := by
  induction seg with
  | nil => simp [splitAmp]
  | cons c cs ih =>
    have hc : c ≠ '&' := hseg c (List.mem_cons_self c cs)
    have hcs : ∀ x ∈ cs, x ≠ '&' := fun x hx => hseg x (List.mem_cons_of_mem c hx)
    rw [List.cons_append, splitAmp, if_neg hc, ih hcs]

theorem splitAmp_last (seg : List Char) (hseg : ∀ c ∈ seg, c ≠ '&') : splitAmp seg = [seg] := by
  induction seg with
  | nil => simp [splitAmp]
  | cons c cs ih =>
    have hc : c ≠ '&' := hseg c (List.mem_cons_self c cs)
    have hcs : ∀ x ∈ cs, x ≠ '&' := fun x hx => hseg x (List.mem_cons_of_mem c hx)
    rw [splitAmp, if_neg hc, ih hcs]

theorem cutEq_name (name : List Char) (hname : ∀ c ∈ name, c ≠ '=') (value : List Char) :
    cutEq (name ++ '=' :: value) = (name, value) := by
  induction name with
  | nil => simp [cutEq]
  | cons c cs ih =>
    have hc : c ≠ '=' := hname c (List.mem_cons_self c cs)
    have hcs : ∀ x ∈ cs, x ≠ '=' := fun x hx => hname x (List.mem_cons_of_mem c hx)
    rw [List.cons_append, cutEq, if_neg hc, ih hcs]

theorem formUnescape_plain (s : List Char) (hs : ∀ c ∈ s, c ≠ '+' ∧ c ≠ '%') :
    formUnescape s = s := by
  induction s with
  | nil => simp [formUnescape]
  | cons c cs ih =>
    have hc := hs c (List.mem_cons_self c cs)
    have hcs : ∀ x ∈ cs, x ≠ '+' ∧ x ≠ '%' := fun x hx => hs x (List.mem_cons_of_mem c hx)
    have hstep : formUnescape (c :: cs) = c :: formUnescape cs := by
      cases cs with
      | nil => simp [formUnescape, hc.1, hc.2]
      | cons x t => cases t <;> simp [formUnescape, hc.1, hc.2]
    rw [hstep, ih hcs]

/-- For a word without `&`, `+` and `%` the form body of `queryBaidu` decodes to the
eight fields, `query` being the word. -/
theorem parseForm_baiduFormBody_plain (w : String)
    (hw : ∀ c ∈ w.data, c ≠ '&' ∧ c ≠ '+' ∧ c ≠ '%') :
    parseForm (baiduFormBody w) = baiduFormFields w := by
  have hbody : (baiduFormBody w).data
      = "from=en".data ++ '&' :: ("to=zh".data ++ '&' :: (("query".data ++ '=' :: w.data)
          ++ '&' :: ("transtype=realtime".data ++ '&' :: ("simple_means_flag=3".data
          ++ '&' :: ("sign=54706.276099".data ++ '&' ::
            ("token=f03f3ff61fc27157bcf6b3b7050bd6cf".data ++ '&' :: "domain=common".data)))))) := by
    simp [baiduFormBody, String.data_append]
  have hq : ∀ c ∈ "query".data ++ '=' :: w.data, c ≠ '&' := by
    intro c hc
    rcases List.mem_append.1 hc with h | h
    · have hlit : ∀ x ∈ "query".data, x ≠ '&' := by decide
      exact hlit c h
    · rcases List.mem_cons.1 h with h | h
      · rw [h]
        decide
      · exact (hw c h).1
  have hplain : formUnescape w.data = w.data :=
    formUnescape_plain w.data (fun c hc => (hw c hc).2)
  unfold parseForm
  rw [hbody, splitAmp_segment _ (by decide), splitAmp_segment _ (by decide),
    splitAmp_segment _ hq, splitAmp_segment _ (by decide), splitAmp_segment _ (by decide),
    splitAmp_segment _ (by decide), splitAmp_segment _ (by decide), splitAmp_last _ (by decide)]
  have hcut : cutEq ("query".data ++ '=' :: w.data) = ("query".data, w.data) :=
    cutEq_name _ (by decide) _
  simp only [List.filter, List.map, hcut, hplain, baiduFormFields, List.cons.injEq,
    Prod.mk.injEq]
  repeat' constructor

/-- C7, the code at a failing input: for the word `a&to=en` the body carries nine fields,
`to` stands in it twice and `query` decodes to `a`, not to the word: the word is spliced
into the body without form encoding. -/
theorem baiduFormBody_word_not_encoded :
    parseForm (baiduFormBody "a&to=en")
        = [("from", "en"), ("to", "zh"), ("query", "a"), ("to", "en"),
            ("transtype", "realtime"), ("simple_means_flag", "3"), ("sign", "54706.276099"),
            ("token", "f03f3ff61fc27157bcf6b3b7050bd6cf"), ("domain", "common")]
      ∧ parseForm (baiduFormBody "a&to=en") ≠ baiduFormFields "a&to=en" := by
  decide

/-! ## The process: invariants of the scheduler -/

@[simp] theorem panicCount_nil : panicCount [] = 0 := rfl

@[simp] theorem panicCount_append (a b : List Event) :
    panicCount (a ++ b) = panicCount a + panicCount b := by simp [panicCount]

@[simp] theorem panicCount_cons (e : Event) (t : List Event) :
    panicCount (e :: t) = (match e with | Event.panicking _ => 1 | _ => 0) + panicCount t := by
  cases e <;> simp [panicCount, Nat.add_comm]

@[simp] theorem panicCount_map (xs : List String) : panicCount (xs.map Event.stdout) = 0 := by
  induction xs with
  | nil => rfl
  | cons x xs ih => simp [ih]

@[simp] theorem panicCount_map_stdout (xs : List String) (f : String → String) :
    panicCount (xs.map (fun x => Event.stdout (f x))) = 0 := by
  induction xs with
  | nil => rfl
  | cons x xs ih => simp [ih]

@[simp] theorem stepEvents_nil : stepEvents [] = [] := rfl

@[simp] theorem stepEvents_append (a b : List Step) :
    stepEvents (a ++ b) = stepEvents a ++ stepEvents b := by simp [stepEvents]

@[simp] theorem stepEvents_event (e : Event) (t : List Step) :
    stepEvents (Step.event e :: t) = e :: stepEvents t := by simp [stepEvents]

@[simp] theorem stepEvents_halt (code : Nat) (t : List Step) :
    stepEvents (Step.halt code :: t) = stepEvents t := by simp [stepEvents]

@[simp] theorem stepEvents_map_event (t : List Event) : stepEvents (t.map Step.event) = t := by
  induction t with
  | nil => rfl
  | cons e t ih => simp [ih]

theorem stepEvents_goroutine (g : Go Unit) : stepEvents (goroutine g) = g.trace := by
  unfold goroutine
  cases g.out <;> simp

@[simp] theorem stepsOf_nil (g : Gid) : stepsOf g [] = [] := rfl

theorem stepsOf_append (g : Gid) (l1 l2 : List (Gid × Step)) :
    stepsOf g (l1 ++ l2) = stepsOf g l1 ++ stepsOf g l2 := by simp [stepsOf]

theorem stepsOf_single_same (g : Gid) (st : Step) : stepsOf g [(g, st)] = [st] := by
  simp [stepsOf]

theorem stepsOf_single_other (g h : Gid) (st : Step) (hne : h ≠ g) :
    stepsOf g [(h, st)] = [] := by
  simp [stepsOf, hne]

theorem logEvents_append (l1 l2 : List (Gid × Step)) :
    logEvents (l1 ++ l2) = logEvents l1 ++ logEvents l2 := by simp [logEvents]

/-- The events of the log are those of the two goroutines: the counts add up. -/
theorem doneCount_logEvents (log : List (Gid × Step)) :
    doneCount (logEvents log) = doneBy Gid.baidu log + doneBy Gid.caiyun log := by
  induction log with
  | nil => rfl
  | cons entry rest ih =>
    obtain ⟨g, st⟩ := entry
    have h1 : logEvents ((g, st) :: rest) = stepEvents [st] ++ logEvents rest := by
      cases st <;> simp [logEvents]
    have h2 : ∀ k, stepsOf k ((g, st) :: rest) = stepsOf k [(g, st)] ++ stepsOf k rest :=
      fun k => stepsOf_append k [(g, st)] rest
    rw [h1]
    unfold doneBy
    rw [h2 Gid.baidu, h2 Gid.caiyun]
    unfold doneBy at ih
    cases g
    · rw [stepsOf_single_same, stepsOf_single_other _ _ _ (by decide)]
      simp only [stepEvents_append, doneCount_append, ih, stepEvents_nil, doneCount_nil]
      omega
    · rw [stepsOf_single_same, stepsOf_single_other _ _ _ (by decide)]
      simp only [stepEvents_append, doneCount_append, ih, stepEvents_nil, doneCount_nil]
      omega

/-! ### Replaying events on the process -/

theorem foldl_apply_exitCode (evs : List Event) (p : Proc) :
    (evs.foldl Proc.apply p).exitCode = p.exitCode := by
  induction evs generalizing p with
  | nil => rfl
  | cons e t ih =>
    rw [List.foldl_cons, ih]
    cases e <;> rfl

theorem foldl_apply_stdout (evs : List Event) (p : Proc) :
    (evs.foldl Proc.apply p).stdout = p.stdout ++ stdoutOf evs := by
  induction evs generalizing p with
  | nil => simp
  | cons e t ih =>
    rw [List.foldl_cons, ih]
    cases e <;> simp [Proc.apply]

theorem foldl_apply_stderr (evs : List Event) (p : Proc) :
    (evs.foldl Proc.apply p).stderr = p.stderr ++ stderrOf evs := by
  induction evs generalizing p with
  | nil => simp [stderrOf]
  | cons e t ih =>
    rw [List.foldl_cons, ih]
    cases e <;> simp [Proc.apply, stderrOf]

theorem foldl_apply_sent (evs : List Event) (p : Proc) :
    (evs.foldl Proc.apply p).sent = p.sent ++ sentOf evs := by
  induction evs generalizing p with
  | nil => simp [sentOf]
  | cons e t ih =>
    rw [List.foldl_cons, ih]
    cases e <;> simp [Proc.apply, sentOf]

theorem foldl_apply_wg (evs : List Event) (p : Proc) :
    (evs.foldl Proc.apply p).wg = p.wg - (doneCount evs : Int) := by
  induction evs generalizing p with
  | nil => simp
  | cons e t ih =>
    rw [List.foldl_cons, ih]
    cases e <;> simp [Proc.apply]
    omega

theorem apply_clear_exitCode (p : Proc) (e : Event) :
    ({ p.apply e with exitCode := none } : Proc)
      = ({ p with exitCode := none } : Proc).apply e := by
  cases e <;> rfl

/-! ### The invariant -/

theorem Inv.init (a c : List Step) :
    Inv a c { proc := { wg := 2 }, baidu := a, caiyun := c } :=
  ⟨rfl, rfl, rfl⟩

theorem Inv.exec_baidu {a c : List Step} {s : Sys} (h : Inv a c s) (st : Step)
    (rest : List Step) (hb : s.baidu = st :: rest) :
    Inv a c (execStep Gid.baidu st { s with baidu := rest }) := by
  obtain ⟨h1, h2, h3⟩ := h
  cases st with
  | event e =>
    refine ⟨?_, ?_, ?_⟩
    · simp only [execStep, stepsOf_append, stepsOf_single_same]
      rw [← h1, hb]
      simp
    · simp only [execStep, stepsOf_append, stepsOf_single_other _ _ _ (by decide : Gid.baidu ≠ Gid.caiyun)]
      rw [← h2]
      simp
    · simp only [execStep, logEvents_append, List.foldl_append]
      rw [← h3]
      simp [logEvents, apply_clear_exitCode]
  | halt code =>
    refine ⟨?_, ?_, ?_⟩
    · simp only [execStep, stepsOf_append, stepsOf_single_same]
      rw [← h1, hb]
      simp
    · simp only [execStep, stepsOf_append, stepsOf_single_other _ _ _ (by decide : Gid.baidu ≠ Gid.caiyun)]
      rw [← h2]
      simp
    · simp only [execStep, logEvents_append, List.foldl_append]
      rw [← h3]
      simp [logEvents]

theorem Inv.exec_caiyun {a c : List Step} {s : Sys} (h : Inv a c s) (st : Step)
    (rest : List Step) (hc : s.caiyun = st :: rest) :
    Inv a c (execStep Gid.caiyun st { s with caiyun := rest }) := by
  obtain ⟨h1, h2, h3⟩ := h
  cases st with
  | event e =>
    refine ⟨?_, ?_, ?_⟩
    · simp only [execStep, stepsOf_append, stepsOf_single_other _ _ _ (by decide : Gid.caiyun ≠ Gid.baidu)]
      rw [← h1]
      simp
    · simp only [execStep, stepsOf_append, stepsOf_single_same]
      rw [← h2, hc]
      simp
    · simp only [execStep, logEvents_append, List.foldl_append]
      rw [← h3]
      simp [logEvents, apply_clear_exitCode]
  | halt code =>
    refine ⟨?_, ?_, ?_⟩
    · simp only [execStep, stepsOf_append, stepsOf_single_other _ _ _ (by decide : Gid.caiyun ≠ Gid.baidu)]
      rw [← h1]
      simp
    · simp only [execStep, stepsOf_append, stepsOf_single_same]
      rw [← h2, hc]
      simp
    · simp only [execStep, logEvents_append, List.foldl_append]
      rw [← h3]
      simp [logEvents]

/-- What one decision of the scheduler does: a step of `queryBaidu`, a step of
`queryCaiyun`, or the report of a deadlock. -/
theorem schedule_cases (turn : Bool) (s : Sys) :
    (∃ st rest, s.baidu = st :: rest
        ∧ schedule turn s = execStep Gid.baidu st { s with baidu := rest })
      ∨ (∃ st rest, s.caiyun = st :: rest
        ∧ schedule turn s = execStep Gid.caiyun st { s with caiyun := rest })
      ∨ (s.baidu = [] ∧ s.caiyun = []
        ∧ schedule turn s = { s with proc := { s.proc with exitCode := some 2 } }) := by
  cases turn <;> cases hb : s.baidu <;> cases hc : s.caiyun <;>
    first
    | (refine Or.inr (Or.inr ⟨rfl, rfl, ?_⟩); simp [schedule, hb, hc])
    | (refine Or.inl ⟨_, _, rfl, ?_⟩; simp [schedule, hb, hc]; done)
    | (refine Or.inr (Or.inl ⟨_, _, rfl, ?_⟩); simp [schedule, hb, hc])

theorem Inv.schedule {a c : List Step} {s : Sys} (h : Inv a c s) (turn : Bool) :
    Inv a c (schedule turn s) := by
  rcases schedule_cases turn s with ⟨st, rest, hb, heq⟩ | ⟨st, rest, hc, heq⟩ | ⟨_, _, heq⟩
  · rw [heq]
    exact h.exec_baidu st rest hb
  · rw [heq]
    exact h.exec_caiyun st rest hc
  · rw [heq]
    exact ⟨h.1, h.2, h.3⟩

theorem Inv.wgWait {a c : List Step} (fuel : Nat) (sched : List Bool) {s : Sys}
    (h : Inv a c s) : Inv a c (wgWait fuel sched s) := by
  induction fuel generalizing sched s with
  | zero => exact h
  | succ n ih =>
    unfold SimpleDictionary.wgWait
    split
    · exact h
    · split
      · split
        · exact ⟨h.1, h.2, h.3⟩
        · exact ih _ (h.schedule _)
      · exact ih _ (h.schedule _)

/-! ### How the process ends -/

theorem wgWait_of_exited (fuel : Nat) (sched : List Bool) (s : Sys)
    (h : s.proc.exitCode ≠ none) : wgWait fuel sched s = s := by
  cases fuel with
  | zero => rfl
  | succ n =>
    have hsome : s.proc.exitCode.isSome = true := Option.isSome_iff_ne_none.2 h
    simp [wgWait, hsome]

/-- A decision of the scheduler ends the process only through a step that halts it or
through the report of a deadlock, both goroutines having finished. -/
theorem schedule_exit (turn : Bool) (s : Sys) (h0 : s.proc.exitCode = none) (code : Nat)
    (h : (schedule turn s).proc.exitCode = some code) :
    (∃ g, (g, Step.halt code) ∈ (schedule turn s).log)
      ∨ (code = 2 ∧ s.baidu = [] ∧ s.caiyun = []
          ∧ schedule turn s = { s with proc := { s.proc with exitCode := some 2 } }) := by
  rcases schedule_cases turn s with ⟨st, rest, hb, heq⟩ | ⟨st, rest, hc, heq⟩ | ⟨hb, hc, heq⟩
  · rw [heq] at h ⊢
    cases st with
    | event e =>
      have : (s.proc.apply e).exitCode = s.proc.exitCode := by cases e <;> rfl
      simp [execStep, this, h0] at h
    | halt c =>
      simp only [execStep, Option.some.injEq] at h
      subst h
      exact Or.inl ⟨Gid.baidu, by simp [execStep]⟩
  · rw [heq] at h ⊢
    cases st with
    | event e =>
      have : (s.proc.apply e).exitCode = s.proc.exitCode := by cases e <;> rfl
      simp [execStep, this, h0] at h
    | halt c =>
      simp only [execStep, Option.some.injEq] at h
      subst h
      exact Or.inl ⟨Gid.caiyun, by simp [execStep]⟩
  · rw [heq] at h
    simp only [Option.some.injEq] at h
    exact Or.inr ⟨h.symm, hb, hc, heq⟩

/-- A decision of the scheduler ends the process or uses up one step. -/
theorem schedule_progress (turn : Bool) (s : Sys) :
    (schedule turn s).proc.exitCode ≠ none
      ∨ (schedule turn s).baidu.length + (schedule turn s).caiyun.length + 1
          = s.baidu.length + s.caiyun.length := by
  rcases schedule_cases turn s with ⟨st, rest, hb, heq⟩ | ⟨st, rest, hc, heq⟩ | ⟨hb, hc, heq⟩
  · rw [heq]
    cases st with
    | event e =>
      right
      simp [execStep, hb]
      omega
    | halt c =>
      left
      simp [execStep]
  · rw [heq]
    cases st with
    | event e =>
      right
      simp [execStep, hc]
      omega
    | halt c =>
      left
      simp [execStep]
  · rw [heq]
    left
    simp

/-- With enough fuel for the steps still to run, the process ends. -/
theorem wgWait_ends (fuel : Nat) (sched : List Bool) (s : Sys)
    (hfuel : s.baidu.length + s.caiyun.length + 1 ≤ fuel) :
    (wgWait fuel sched s).proc.exitCode ≠ none := by
  induction fuel generalizing sched s with
  | zero => omega
  | succ n ih =>
    have hstep : ∀ (turn : Bool) (rest : List Bool),
        (wgWait n rest (schedule turn s)).proc.exitCode ≠ none := by
      intro turn rest
      rcases schedule_progress turn s with hex | hlen
      · rw [wgWait_of_exited _ _ _ hex]
        exact hex
      · exact ih _ _ (by omega)
    unfold wgWait
    split
    · rename_i hsome
      exact Option.isSome_iff_ne_none.1 hsome
    · split
      · split
        · simp
        · exact hstep _ _
      · exact hstep _ _

/-- The three ways in which the process ends: `main` returns after `wg.Wait()`, with the
counter at zero; a goroutine halts the process; or the run-time reports a deadlock, the
counter not being zero. -/
theorem wgWait_exit (fuel : Nat) (sched : List Bool) (s : Sys)
    (h0 : s.proc.exitCode = none) (code : Nat)
    (h : (wgWait fuel sched s).proc.exitCode = some code) :
    (code = 0 ∧ (wgWait fuel sched s).proc.wg = 0)
      ∨ (∃ g, (g, Step.halt code) ∈ (wgWait fuel sched s).log)
      ∨ (code = 2 ∧ (wgWait fuel sched s).baidu = [] ∧ (wgWait fuel sched s).caiyun = []
          ∧ (wgWait fuel sched s).proc.wg ≠ 0) := by
  induction fuel generalizing sched s with
  | zero =>
    rw [wgWait, h0] at h
    exact absurd h (by simp)
  | succ n ih =>
    have hnot : s.proc.exitCode.isSome = false := by simp [h0]
    have hstep : ∀ (turn : Bool) (rest : List Bool),
        (s.proc.wg = 0 → ¬ (s.baidu = [] ∧ s.caiyun = [])) →
        (wgWait n rest (schedule turn s)).proc.exitCode = some code →
        (code = 0 ∧ (wgWait n rest (schedule turn s)).proc.wg = 0)
          ∨ (∃ g, (g, Step.halt code) ∈ (wgWait n rest (schedule turn s)).log)
          ∨ (code = 2 ∧ (wgWait n rest (schedule turn s)).baidu = []
              ∧ (wgWait n rest (schedule turn s)).caiyun = []
              ∧ (wgWait n rest (schedule turn s)).proc.wg ≠ 0) := by
      intro turn rest hlive hfin
      cases hs : (schedule turn s).proc.exitCode with
      | none => exact ih _ _ hs hfin
      | some c =>
        have hex : (schedule turn s).proc.exitCode ≠ none := by
          rw [hs]
          exact Option.some_ne_none c
        rw [wgWait_of_exited _ _ _ hex] at hfin ⊢
        rw [hs] at hfin
        simp only [Option.some.injEq] at hfin
        subst hfin
        rcases schedule_exit turn s h0 c hs with hl | ⟨h2, hb, hc, heq⟩
        · exact Or.inr (Or.inl hl)
        · rw [heq]
          exact Or.inr (Or.inr ⟨h2, hb, hc, fun hz => hlive hz ⟨hb, hc⟩⟩)
    by_cases hw : s.proc.wg = 0
    · by_cases hret : (sched.headD true || (s.baidu.isEmpty && s.caiyun.isEmpty)) = true
      · have heq : wgWait (n + 1) sched s
            = { s with proc := { s.proc with exitCode := some 0 } } := by
          simp only [wgWait, hnot, hw, hret]
          simp
        rw [heq] at h ⊢
        simp only [Option.some.injEq] at h
        exact Or.inl ⟨h.symm, hw⟩
      · have heq : wgWait (n + 1) sched s
            = wgWait n sched.tail.tail (schedule (sched.tail.headD true) s) := by
          simp only [wgWait, hnot, hw, hret]
          simp
        rw [heq] at h ⊢
        refine hstep _ _ ?_ h
        intro _ hboth
        apply hret
        simp [hboth.1, hboth.2]
    · have heq : wgWait (n + 1) sched s = wgWait n sched.tail (schedule (sched.headD true) s) := by
        simp only [wgWait, hnot, hw]
        simp
      rw [heq] at h ⊢
      exact hstep _ _ (fun hz => absurd hz hw) h

/-! ### The clients and the WaitGroup -/

theorem clientShape_withDefer (body : Go Unit)
    (h : doneCount body.trace = 0 ∧
      match body.out with
      | Outcome.ok _ => panicCount body.trace = 0
      | Outcome.exit code => code ≠ 0
      | Outcome.panic _ => 0 < panicCount body.trace) :
    ClientShape (withDefer wgDone body) := by
  obtain ⟨hd, hm⟩ := h
  unfold ClientShape withDefer
  cases hout : body.out with
  | ok u =>
    rw [hout] at hm
    exact ⟨body.trace, rfl, hd, hm⟩
  | exit code =>
    rw [hout] at hm
    simp only [hout]
    exact ⟨hm, hd⟩
  | panic msg =>
    rw [hout] at hm
    exact ⟨body.trace, rfl, hd, hm⟩

theorem queryCaiyun_shape (env : Env) (w : String) : ClientShape (queryCaiyun env w) := by
  unfold queryCaiyun
  apply clientShape_withDefer
  cases hm : env.jsonMarshal { TransType := "en2zh", Source := w } with
  | error e => simp [bind, Go.seq, orFatal, hm]
  | ok buf =>
    cases hn : env.newRequestError "POST" "https://api.interpreter.caiyunai.com/v1/dict" with
    | some e => simp [bind, Go.seq, orFatal, hm, httpNewRequest, hn]
    | none =>
      cases hd : env.clientDo (setHeaders
          { Method := "POST", URL := "https://api.interpreter.caiyunai.com/v1/dict", Body := buf }
          caiyunHeaders) with
      | error e => simp [bind, Go.seq, orFatal, hm, httpNewRequest, hn, clientDo, hd]
      | ok resp =>
        cases hb : resp.Body with
        | error e =>
          simp [bind, Go.seq, orFatal, hm, httpNewRequest, hn, clientDo, hd, withDefer,
            ioutilReadAll, hb]
        | ok body =>
          by_cases hs : resp.StatusCode = 200
          · cases hu : env.unmarshalDictResponse body with
            | error e =>
              simp [bind, Go.seq, orFatal, hm, httpNewRequest, hn, clientDo, hd, withDefer,
                ioutilReadAll, hb, hs, hu, pure]
            | ok d =>
              simp [bind, Go.seq, orFatal, hm, httpNewRequest, hn, clientDo, hd, withDefer,
                ioutilReadAll, hb, hs, hu, pure]
          · simp [bind, Go.seq, orFatal, hm, httpNewRequest, hn, clientDo, hd, withDefer,
              ioutilReadAll, hb, hs, pure]

theorem queryBaidu_shape (env : Env) (w : String) : ClientShape (queryBaidu env w) := by
  unfold queryBaidu
  apply clientShape_withDefer
  cases hn : env.newRequestError "POST" "https://fanyi.baidu.com/v2transapi?from=en&to=zh" with
  | some e => simp [bind, Go.seq, orFatal, httpNewRequest, hn]
  | none =>
    cases hd : env.clientDo (setHeaders
        { Method := "POST", URL := "https://fanyi.baidu.com/v2transapi?from=en&to=zh",
          Body := baiduFormBody w }
        baiduHeaders) with
    | error e => simp [bind, Go.seq, orFatal, httpNewRequest, hn, clientDo, hd]
    | ok resp =>
      cases hb : resp.Body with
      | error e =>
        simp [bind, Go.seq, orFatal, httpNewRequest, hn, clientDo, hd, withDefer,
          ioutilReadAll, hb]
      | ok body =>
        cases hu : env.unmarshalBaiduResponse body with
        | error e =>
          simp [bind, Go.seq, orFatal, httpNewRequest, hn, clientDo, hd, withDefer,
            ioutilReadAll, hb, hu]
        | ok r =>
          cases hsym : r.DictResult.SimpleMeans.Symbols with
          | nil =>
            simp [bind, Go.seq, orFatal, httpNewRequest, hn, clientDo, hd, withDefer,
              ioutilReadAll, hb, hu, hsym, sliceIndex]
          | cons s0 rest =>
            simp [bind, Go.seq, orFatal, httpNewRequest, hn, clientDo, hd, withDefer,
              ioutilReadAll, hb, hu, hsym, sliceIndex]

/-- `queryCaiyun` has no run-time panic: it returns or ends in `log.Fatal`. -/
theorem queryCaiyun_no_panic (env : Env) (w msg : String) :
    (queryCaiyun env w).out ≠ Outcome.panic msg := by
  unfold queryCaiyun
  cases hm : env.jsonMarshal { TransType := "en2zh", Source := w } with
  | error e => simp [withDefer, bind, Go.seq, orFatal, hm]
  | ok buf =>
    cases hn : env.newRequestError "POST" "https://api.interpreter.caiyunai.com/v1/dict" with
    | some e => simp [withDefer, bind, Go.seq, orFatal, hm, httpNewRequest, hn]
    | none =>
      cases hd : env.clientDo (setHeaders
          { Method := "POST", URL := "https://api.interpreter.caiyunai.com/v1/dict", Body := buf }
          caiyunHeaders) with
      | error e => simp [withDefer, bind, Go.seq, orFatal, hm, httpNewRequest, hn, clientDo, hd]
      | ok resp =>
        cases hb : resp.Body with
        | error e =>
          simp [bind, Go.seq, orFatal, hm, httpNewRequest, hn, clientDo, hd, withDefer,
            ioutilReadAll, hb]
        | ok body =>
          by_cases hs : resp.StatusCode = 200
          · cases hu : env.unmarshalDictResponse body with
            | error e =>
              simp [bind, Go.seq, orFatal, hm, httpNewRequest, hn, clientDo, hd, withDefer,
                ioutilReadAll, hb, hs, hu, pure]
            | ok d =>
              simp [bind, Go.seq, orFatal, hm, httpNewRequest, hn, clientDo, hd, withDefer,
                ioutilReadAll, hb, hs, hu, pure]
          · simp [bind, Go.seq, orFatal, hm, httpNewRequest, hn, clientDo, hd, withDefer,
              ioutilReadAll, hb, hs, pure]

/-- A `queryCaiyun` that returns normally has printed the summary of a response the
decoder gave it. -/
theorem queryCaiyun_ok_summary (env : Env) (w : String)
    (h : (queryCaiyun env w).out = Outcome.ok ()) :
    ∃ body d, env.unmarshalDictResponse body = Except.ok d
      ∧ stdoutOf (queryCaiyun env w).trace = caiyunSummary w d := by
  cases hm : env.jsonMarshal { TransType := "en2zh", Source := w } with
  | error e => simp [queryCaiyun, withDefer, bind, Go.seq, orFatal, hm] at h
  | ok buf =>
    cases hn : env.newRequestError "POST" "https://api.interpreter.caiyunai.com/v1/dict" with
    | some e => simp [queryCaiyun, withDefer, bind, Go.seq, orFatal, hm, httpNewRequest, hn] at h
    | none =>
      cases hd : env.clientDo (caiyunRequest buf) with
      | error e =>
        unfold caiyunRequest at hd
        simp [queryCaiyun, withDefer, bind, Go.seq, orFatal, hm, httpNewRequest, hn, clientDo,
          hd] at h
      | ok resp =>
        by_cases hs : resp.StatusCode = 200
        · cases hb : resp.Body with
          | error e =>
            unfold caiyunRequest at hd
            simp [queryCaiyun, bind, Go.seq, orFatal, hm, httpNewRequest, hn, clientDo, hd,
              withDefer, ioutilReadAll, hb] at h
          | ok body =>
            cases hu : env.unmarshalDictResponse body with
            | error e =>
              rw [(queryCaiyun_bad_body env w buf body e resp hm hn hd hs hb hu).2.1] at h
              cases h
            | ok d =>
              refine ⟨body, d, hu, ?_⟩
              rw [(queryCaiyun_success env w buf body resp d hm hn hd hs hb hu).1]
              simp only [stdoutOf_append, stdoutOf_cons, stdoutOf_nil, stdoutOf_map]
              simp
        · rw [(queryCaiyun_bad_status env w buf resp hm hn hd hs).2.1] at h
          cases h

/-- A `queryBaidu` that returns normally has printed the summary of a response the
decoder gave it, with the first phonetic entry of that response. -/
theorem queryBaidu_ok_summary (env : Env) (w : String)
    (h : (queryBaidu env w).out = Outcome.ok ()) :
    ∃ body r s0 rest, env.unmarshalBaiduResponse body = Except.ok r
      ∧ r.DictResult.SimpleMeans.Symbols = s0 :: rest
      ∧ stdoutOf (queryBaidu env w).trace
          = baiduSummary w s0 r.DictResult.SimpleMeans.WordMeans := by
  cases hn : env.newRequestError "POST" "https://fanyi.baidu.com/v2transapi?from=en&to=zh" with
  | some e => simp [queryBaidu, withDefer, bind, Go.seq, orFatal, httpNewRequest, hn] at h
  | none =>
    cases hd : env.clientDo (baiduRequest w) with
    | error e =>
      unfold baiduRequest at hd
      simp [queryBaidu, withDefer, bind, Go.seq, orFatal, httpNewRequest, hn, clientDo, hd] at h
    | ok resp =>
      cases hb : resp.Body with
      | error e =>
        unfold baiduRequest at hd
        simp [queryBaidu, bind, Go.seq, orFatal, httpNewRequest, hn, clientDo, hd, withDefer,
          ioutilReadAll, hb] at h
      | ok body =>
        cases hu : env.unmarshalBaiduResponse body with
        | error e =>
          unfold baiduRequest at hd
          simp [queryBaidu, bind, Go.seq, orFatal, httpNewRequest, hn, clientDo, hd, withDefer,
            ioutilReadAll, hb, hu] at h
        | ok r =>
          cases hsym : r.DictResult.SimpleMeans.Symbols with
          | nil =>
            rw [(queryBaidu_no_symbols env w body resp r hn hd hb hu hsym).2] at h
            cases h
          | cons s0 rest =>
            refine ⟨body, r, s0, rest, hu, hsym, ?_⟩
            rw [(queryBaidu_success env w body resp r s0 rest hn hd hb hu hsym).1]
            simp only [stdoutOf_append, stdoutOf_cons, stdoutOf_nil, stdoutOf_map]
            simp

theorem mem_stepsOf {g : Gid} {st : Step} {log : List (Gid × Step)} (h : (g, st) ∈ log) :
    st ∈ stepsOf g log := by
  unfold stepsOf
  exact List.mem_map.2 ⟨(g, st), List.mem_filter.2 ⟨h, by simp⟩, rfl⟩

theorem halt_mem_goroutine {g : Go Unit} {code : Nat} (h : Step.halt code ∈ goroutine g) :
    g.out = Outcome.exit code ∨ (code = 2 ∧ ∃ msg, g.out = Outcome.panic msg) := by
  unfold goroutine at h
  cases hout : g.out with
  | ok u => simp [hout] at h
  | exit c =>
    simp [hout] at h
    rw [h]
    exact Or.inl rfl
  | panic msg =>
    simp [hout] at h
    exact Or.inr ⟨h, msg, rfl⟩

theorem ClientShape.doneCount_le {g : Go Unit} (h : ClientShape g) : doneCount g.trace ≤ 1 := by
  unfold ClientShape at h
  cases hout : g.out with
  | ok u =>
    rw [hout] at h
    obtain ⟨pre, ht, hd, _⟩ := h
    rw [ht]
    simp [hd]
  | exit c =>
    rw [hout] at h
    omega
  | panic msg =>
    rw [hout] at h
    obtain ⟨pre, ht, hd, _⟩ := h
    rw [ht]
    simp [hd]

/-- The count of `wg.Done()` calls of a client is 1 when it returns or panics and 0
when it ends in `os.Exit`. -/
theorem ClientShape.doneCount_eq {g : Go Unit} (h : ClientShape g) :
    doneCount g.trace = match g.out with
      | Outcome.ok _ => 1
      | Outcome.exit _ => 0
      | Outcome.panic _ => 1 := by
  unfold ClientShape at h
  cases hout : g.out with
  | ok u =>
    rw [hout] at h
    obtain ⟨pre, ht, hd, _⟩ := h
    rw [ht]
    simp [hd]
  | exit c =>
    rw [hout] at h
    exact h.2
  | panic msg =>
    rw [hout] at h
    obtain ⟨pre, ht, hd, _⟩ := h
    rw [ht]
    simp [hd]

/-- Once the `wg.Done()` of a client has run, all its events have run, and the client
is one that returns or panics. -/
theorem events_run_of_done {g : Go Unit} (hg : ClientShape g) {ran left : List Step}
    (hsplit : ran ++ left = goroutine g) (hdone : doneCount (stepEvents ran) = 1) :
    stepEvents ran = g.trace ∧ stepEvents left = []
      ∧ (∀ code, g.out ≠ Outcome.exit code)
      ∧ ((∃ msg, g.out = Outcome.panic msg) → 0 < panicCount (stepEvents ran)) := by
  have hev : stepEvents ran ++ stepEvents left = g.trace := by
    rw [← stepEvents_append, hsplit, stepEvents_goroutine]
  have hshape : ∃ pre, g.trace = pre ++ [Event.wgDone] ∧ doneCount pre = 0
      ∧ ((∃ msg, g.out = Outcome.panic msg) → 0 < panicCount pre)
      ∧ (∀ code, g.out ≠ Outcome.exit code) := by
    unfold ClientShape at hg
    cases hout : g.out with
    | ok u =>
      rw [hout] at hg
      obtain ⟨pre, ht, hd, _⟩ := hg
      exact ⟨pre, ht, hd, by simp, by simp⟩
    | exit c =>
      rw [hout] at hg
      have h1 : doneCount (stepEvents ran) ≤ doneCount g.trace := by
        rw [← hev]
        simp
      omega
    | panic msg =>
      rw [hout] at hg
      obtain ⟨pre, ht, hd, hp⟩ := hg
      exact ⟨pre, ht, hd, fun _ => hp, by simp⟩
  obtain ⟨pre, ht, hd, hp, hne⟩ := hshape
  rw [ht] at hev
  have hran : stepEvents ran = pre ++ [Event.wgDone] ∧ stepEvents left = [] := by
    rcases List.append_eq_append_iff.1 hev with ⟨a', h1, h2⟩ | ⟨c', h1, h2⟩
    · rw [h1] at hd
      simp at hd
      omega
    · cases c' with
      | nil =>
        rw [h1] at hdone
        simp at hdone
        omega
      | cons x xs =>
        simp only [List.cons_append, List.cons.injEq] at h2
        obtain ⟨hx, hnil⟩ := h2
        obtain ⟨hx1, hx2⟩ := List.append_eq_nil.1 hnil.symm
        subst hx1
        subst hx
        exact ⟨h1, hx2⟩
  refine ⟨?_, hran.2, hne, ?_⟩
  · rw [hran.1, ht]
  · intro hmsg
    rw [hran.1]
    have := hp hmsg
    simp
    omega

/-- A goroutine that returns normally and has no event left has no step left. -/
theorem left_nil_of_ok {g : Go Unit} {u : Unit} (hout : g.out = Outcome.ok u)
    {ran left : List Step} (hsplit : ran ++ left = goroutine g)
    (hleft : stepEvents left = []) : left = [] := by
  cases left with
  | nil => rfl
  | cons st rest =>
    have hmem : st ∈ goroutine g := by
      rw [← hsplit]
      simp
    unfold goroutine at hmem
    simp only [hout, List.append_nil, List.mem_map] at hmem
    obtain ⟨e, _, he⟩ := hmem
    subst he
    simp at hleft

/-! ### From the invariant to the WaitGroup counter and the exit status -/

theorem Inv.wg_eq {a c : List Step} {t : Sys} (h : Inv a c t) :
    t.proc.wg = 2 - (doneBy Gid.baidu t.log : Int) - (doneBy Gid.caiyun t.log : Int) := by
  have h1 := congrArg Proc.wg h.replay
  simp only [foldl_apply_wg, doneCount_logEvents] at h1
  rw [h1]
  push_cast
  omega

theorem Inv.stdout_eq {a c : List Step} {t : Sys} (h : Inv a c t) :
    t.proc.stdout = stdoutOf (logEvents t.log) := by
  have h1 := congrArg Proc.stdout h.replay
  simp only [foldl_apply_stdout] at h1
  rw [h1]
  simp

theorem Inv.stderr_eq {a c : List Step} {t : Sys} (h : Inv a c t) :
    t.proc.stderr = stderrOf (logEvents t.log) := by
  have h1 := congrArg Proc.stderr h.replay
  simp only [foldl_apply_stderr] at h1
  rw [h1]
  simp

theorem Inv.sent_eq {a c : List Step} {t : Sys} (h : Inv a c t) :
    t.proc.sent = sentOf (logEvents t.log) := by
  have h1 := congrArg Proc.sent h.replay
  simp only [foldl_apply_sent] at h1
  rw [h1]
  simp

theorem doneCount_ran_le {g : Go Unit} {ran left : List Step}
    (hsplit : ran ++ left = goroutine g) : doneCount (stepEvents ran) ≤ doneCount g.trace := by
  rw [← stepEvents_goroutine g, ← hsplit]
  simp

theorem Inv.doneBy_le {a c : Go Unit} {t : Sys} (h : Inv (goroutine a) (goroutine c) t)
    (ha : ClientShape a) (hc : ClientShape c) :
    doneBy Gid.baidu t.log ≤ 1 ∧ doneBy Gid.caiyun t.log ≤ 1 :=
  ⟨Nat.le_trans (doneCount_ran_le h.baidu_steps) ha.doneCount_le,
    Nat.le_trans (doneCount_ran_le h.caiyun_steps) hc.doneCount_le⟩

/-- With the counter at zero both clients have called `wg.Done()`: all the events of
each have run, and neither is a client that ends in `os.Exit`. -/
theorem Inv.both_done {a c : Go Unit} {t : Sys} (h : Inv (goroutine a) (goroutine c) t)
    (ha : ClientShape a) (hc : ClientShape c) (hwg : t.proc.wg = 0) :
    stepEvents (stepsOf Gid.baidu t.log) = a.trace
      ∧ stepEvents (stepsOf Gid.caiyun t.log) = c.trace
      ∧ (∀ code, a.out ≠ Outcome.exit code) ∧ (∀ code, c.out ≠ Outcome.exit code) := by
  obtain ⟨hle1, hle2⟩ := h.doneBy_le ha hc
  have hw := h.wg_eq
  rw [hwg] at hw
  have hb1 : doneCount (stepEvents (stepsOf Gid.baidu t.log)) = 1 := by
    unfold doneBy at hw hle1 hle2
    omega
  have hc1 : doneCount (stepEvents (stepsOf Gid.caiyun t.log)) = 1 := by
    unfold doneBy at hw hle1 hle2
    omega
  obtain ⟨hbt, _, hbne, _⟩ := events_run_of_done ha h.baidu_steps hb1
  obtain ⟨hct, _, hcne, _⟩ := events_run_of_done hc h.caiyun_steps hc1
  exact ⟨hbt, hct, hbne, hcne⟩

/-- The process started with two well-behaved clients always ends.  When it ends with
status 0 both clients have run all their events and neither has ended in `os.Exit`;
when both clients return normally it ends with status 0. -/
theorem wgWait_exit_zero (a c : Go Unit) (ha : ClientShape a) (hc : ClientShape c)
    (fuel : Nat) (sched : List Bool)
    (hfuel : (goroutine a).length + (goroutine c).length + 1 ≤ fuel) :
    (∃ code, (wgWait fuel sched
        { proc := { wg := 2 }, baidu := goroutine a, caiyun := goroutine c }).proc.exitCode
          = some code)
      ∧ ((wgWait fuel sched
          { proc := { wg := 2 }, baidu := goroutine a, caiyun := goroutine c }).proc.exitCode
        = some 0 →
          stepEvents (stepsOf Gid.baidu (wgWait fuel sched
            { proc := { wg := 2 }, baidu := goroutine a, caiyun := goroutine c }).log) = a.trace
          ∧ stepEvents (stepsOf Gid.caiyun (wgWait fuel sched
            { proc := { wg := 2 }, baidu := goroutine a, caiyun := goroutine c }).log) = c.trace
          ∧ (∀ code, a.out ≠ Outcome.exit code) ∧ (∀ code, c.out ≠ Outcome.exit code))
      ∧ (a.out = Outcome.ok () → c.out = Outcome.ok () →
          (wgWait fuel sched
            { proc := { wg := 2 }, baidu := goroutine a, caiyun := goroutine c }).proc.exitCode
          = some 0) := by
  generalize hs : ({ proc := { wg := 2 }, baidu := goroutine a, caiyun := goroutine c } : Sys) = s
  have hinv : Inv (goroutine a) (goroutine c) (wgWait fuel sched s) := by
    rw [← hs]
    exact Inv.wgWait fuel sched (Inv.init _ _)
  have h0 : s.proc.exitCode = none := by
    rw [← hs]
  have hlen : s.baidu.length + s.caiyun.length + 1 ≤ fuel := by
    rw [← hs]
    exact hfuel
  have hends := wgWait_ends fuel sched s hlen
  refine ⟨Option.ne_none_iff_exists'.1 hends, ?_, ?_⟩
  · intro hex
    rcases wgWait_exit fuel sched s h0 0 hex with ⟨_, hwg⟩ | ⟨g, hmem⟩ | ⟨h2, _⟩
    · exact hinv.both_done ha hc hwg
    · exfalso
      have hst := mem_stepsOf hmem
      cases g with
      | baidu =>
        have hin : Step.halt 0 ∈ goroutine a := by
          rw [← hinv.baidu_steps]
          exact List.mem_append_left _ hst
        rcases halt_mem_goroutine hin with hout | ⟨h2, _⟩
        · unfold ClientShape at ha
          rw [hout] at ha
          exact ha.1 rfl
        · omega
      | caiyun =>
        have hin : Step.halt 0 ∈ goroutine c := by
          rw [← hinv.caiyun_steps]
          exact List.mem_append_left _ hst
        rcases halt_mem_goroutine hin with hout | ⟨h2, _⟩
        · unfold ClientShape at hc
          rw [hout] at hc
          exact hc.1 rfl
        · omega
    · omega
  · intro hao hco
    obtain ⟨code, hcode⟩ := Option.ne_none_iff_exists'.1 hends
    rcases wgWait_exit fuel sched s h0 code hcode with ⟨hz, _⟩ | ⟨g, hmem⟩ | ⟨_, hbn, hcn, hnot⟩
    · rw [hcode, hz]
    · exfalso
      have hst := mem_stepsOf hmem
      cases g with
      | baidu =>
        have hin : Step.halt code ∈ goroutine a := by
          rw [← hinv.baidu_steps]
          exact List.mem_append_left _ hst
        rcases halt_mem_goroutine hin with hout | ⟨_, msg, hout⟩ <;> rw [hao] at hout <;> cases hout
      | caiyun =>
        have hin : Step.halt code ∈ goroutine c := by
          rw [← hinv.caiyun_steps]
          exact List.mem_append_left _ hst
        rcases halt_mem_goroutine hin with hout | ⟨_, msg, hout⟩ <;> rw [hco] at hout <;> cases hout
    · exfalso
      apply hnot
      have hb := hinv.baidu_steps
      have hc' := hinv.caiyun_steps
      rw [hbn, List.append_nil] at hb
      rw [hcn, List.append_nil] at hc'
      have hda := ha.doneCount_eq
      have hdc := hc.doneCount_eq
      rw [hao] at hda
      rw [hco] at hdc
      rw [hinv.wg_eq]
      unfold doneBy
      rw [hb, hc', stepEvents_goroutine, stepEvents_goroutine, hda, hdc]
      simp

/-! ## The coordinator, claim by claim -/

theorem main_two_args (env : Env) (name word : String) (sched : List Bool) :
    main env [name, word] sched
      = wgWait ((goroutine (queryBaidu env word)).length
          + (goroutine (queryCaiyun env word)).length + 1) sched (started env word) := rfl

theorem main_inv (env : Env) (name word : String) (sched : List Bool) :
    Inv (goroutine (queryBaidu env word)) (goroutine (queryCaiyun env word))
      (main env [name, word] sched) := by
  rw [main_two_args]
  exact Inv.wgWait _ _ (Inv.init _ _)

/-- C6: when `len(os.Args)` is not 2, `main` writes the usage text to standard error and
exits with status 1; no goroutine exists, no step has run, nothing is on standard output
and no request has been made.  When `os.Args` is a program name and one word, both
goroutines run their client on that word, and every text on standard error, every text
on standard output and every request comes from a step of theirs: `main` itself has
written no usage text. -/
theorem main_argument_count (env : Env) (args : List String) (sched : List Bool) :
    (args.length ≠ 2 →
        (main env args sched).proc.stderr = [usageText]
          ∧ (main env args sched).proc.exitCode = some 1
          ∧ (main env args sched).proc.stdout = []
          ∧ (main env args sched).proc.sent = []
          ∧ (main env args sched).log = []
          ∧ (main env args sched).baidu = []
          ∧ (main env args sched).caiyun = [])
      ∧ (∀ name word, args = [name, word] →
          stepsOf Gid.baidu (main env args sched).log ++ (main env args sched).baidu
              = goroutine (queryBaidu env word)
            ∧ stepsOf Gid.caiyun (main env args sched).log ++ (main env args sched).caiyun
              = goroutine (queryCaiyun env word)
            ∧ (main env args sched).proc.stderr = stderrOf (logEvents (main env args sched).log)
            ∧ (main env args sched).proc.stdout = stdoutOf (logEvents (main env args sched).log)
            ∧ (main env args sched).proc.sent = sentOf (logEvents (main env args sched).log)) := by
  refine ⟨?_, ?_⟩
  · intro hlen
    simp [main, hlen]
  · intro name word hargs
    subst hargs
    have hinv := main_inv env name word sched
    exact ⟨hinv.baidu_steps, hinv.caiyun_steps, hinv.stderr_eq, hinv.stdout_eq, hinv.sent_eq⟩

/-- C6 without any word on the command line. -/
theorem main_argument_count_witness :
    (main helloEnv ["simpleDict"] []).proc.stderr = [usageText]
      ∧ (main helloEnv ["simpleDict"] []).proc.exitCode = some 1
      ∧ (main helloEnv ["simpleDict"] []).proc.stdout = []
      ∧ (main helloEnv ["simpleDict"] []).proc.sent = []
      ∧ (main helloEnv ["simpleDict"] []).log = []
      ∧ (main helloEnv ["simpleDict"] []).baidu = []
      ∧ (main helloEnv ["simpleDict"] []).caiyun = [] :=
  (main_argument_count helloEnv ["simpleDict"] []).1 (by decide)

/-- C8 as stated fails: on a response with status 500 `queryCaiyun` ends in
`log.Fatal`, that is in `os.Exit(1)`, and its deferred `wg.Done()` never runs. -/
theorem queryCaiyun_fatal_skips_done :
    (queryCaiyun status500Env "hello").out = Outcome.exit 1
      ∧ doneCount (queryCaiyun status500Env "hello").trace = 0
      ∧ ¬ doneCount (queryCaiyun status500Env "hello").trace = 1 := by
  obtain ⟨_, h2, h3⟩ := queryCaiyun_bad_status status500Env "hello" _ (plainResponse 500)
    rfl rfl rfl (by decide)
  exact ⟨h2, h3, by omega⟩

/-- C8, amended: a client calls `wg.Done()` once when it returns normally and once
when it panics, and not at all when it ends in `os.Exit` through `log.Fatal`; in every
state the process reaches, the counter is 2 less the calls made so far, no client has
made more than one, and the counter is 0 exactly when both clients have made theirs. -/
theorem waitGroup_done_at_most_once (env : Env) (w : String) (fuel : Nat)
    (sched : List Bool) :
    (doneCount (queryCaiyun env w).trace
        = match (queryCaiyun env w).out with
          | Outcome.ok _ => 1
          | Outcome.exit _ => 0
          | Outcome.panic _ => 1)
      ∧ (doneCount (queryBaidu env w).trace
        = match (queryBaidu env w).out with
          | Outcome.ok _ => 1
          | Outcome.exit _ => 0
          | Outcome.panic _ => 1)
      ∧ (wgWait fuel sched (started env w)).proc.wg
          = 2 - (doneBy Gid.baidu (wgWait fuel sched (started env w)).log : Int)
              - (doneBy Gid.caiyun (wgWait fuel sched (started env w)).log : Int)
      ∧ doneBy Gid.baidu (wgWait fuel sched (started env w)).log ≤ 1
      ∧ doneBy Gid.caiyun (wgWait fuel sched (started env w)).log ≤ 1
      ∧ ((wgWait fuel sched (started env w)).proc.wg = 0
          ↔ doneBy Gid.baidu (wgWait fuel sched (started env w)).log = 1
            ∧ doneBy Gid.caiyun (wgWait fuel sched (started env w)).log = 1) := by
  have hinv : Inv (goroutine (queryBaidu env w)) (goroutine (queryCaiyun env w))
      (wgWait fuel sched (started env w)) := Inv.wgWait _ _ (Inv.init _ _)
  have hwg := hinv.wg_eq
  obtain ⟨h1, h2⟩ := hinv.doneBy_le (queryBaidu_shape env w) (queryCaiyun_shape env w)
  refine ⟨(queryCaiyun_shape env w).doneCount_eq, (queryBaidu_shape env w).doneCount_eq,
    hwg, h1, h2, ?_⟩
  rw [hwg]
  omega

/-- C8, amended, on a run in which both clients succeed: the counter ends at 0, each
client having called `wg.Done()` once. -/
theorem waitGroup_done_at_most_once_witness :
    (main helloEnv ["simpleDict", "hello"] [true, false]).proc.wg = 0
      ∧ doneBy Gid.baidu (main helloEnv ["simpleDict", "hello"] [true, false]).log = 1
      ∧ doneBy Gid.caiyun (main helloEnv ["simpleDict", "hello"] [true, false]).log = 1 := by
  have h := (waitGroup_done_at_most_once helloEnv "hello"
    ((goroutine (queryBaidu helloEnv "hello")).length
      + (goroutine (queryCaiyun helloEnv "hello")).length + 1) [true, false]).2.2.2.2.2
  have hwg : (main helloEnv ["simpleDict", "hello"] [true, false]).proc.wg = 0 := by decide
  exact ⟨hwg, h.1 hwg⟩

/-- C9 as stated fails: Source B answers without phonetic entries and `queryCaiyun`
finishes first.  `queryBaidu` prints its header and panics at the index-0 access; its
deferred `wg.Done()` brings the counter to zero, `wg.Wait()` returns and `main` ends the
process with status 0 before the panic does: the exit status is 0 although one client
has failed and has printed no summary. -/
theorem main_exit_zero_after_panic :
    (main noSymbolsEnv ["simpleDict", "hello"]
        [false, false, false, false, false, false]).proc.exitCode = some 0
      ∧ (queryBaidu noSymbolsEnv "hello").out
          = Outcome.panic "runtime error: index out of range [0] with length 0"
      ∧ stdoutBy Gid.baidu (main noSymbolsEnv ["simpleDict", "hello"]
          [false, false, false, false, false, false]).log = ["Baidu:\n"] := by
  refine ⟨by decide, ?_, by decide⟩
  exact (queryBaidu_no_symbols noSymbolsEnv "hello" "ok" (plainResponse 200)
    noSymbolsBaiduResponse rfl rfl rfl rfl rfl).2

/-- C9, amended: the process always ends with an exit status.  When the status is 0,
one word was given, no client has ended in `log.Fatal`, `queryCaiyun` has returned
normally and has printed the whole summary of a response it decoded, and `queryBaidu`
has either done the same or panicked.  When one word is given and both clients return
normally the status is 0.  A wrong argument count gives status 1, and a `log.Fatal`
in either client gives a status other than 0. -/
theorem main_exit_status (env : Env) (args : List String) (sched : List Bool) :
    (∃ code, (main env args sched).proc.exitCode = some code)
      ∧ ((main env args sched).proc.exitCode = some 0 →
          args.length = 2
            ∧ (∀ code, (queryBaidu env (args.getD 1 "")).out ≠ Outcome.exit code)
            ∧ (queryCaiyun env (args.getD 1 "")).out = Outcome.ok ()
            ∧ (∃ body d, env.unmarshalDictResponse body = Except.ok d
                ∧ stdoutBy Gid.caiyun (main env args sched).log
                    = caiyunSummary (args.getD 1 "") d)
            ∧ (((queryBaidu env (args.getD 1 "")).out = Outcome.ok ()
                  ∧ ∃ body r s0 rest, env.unmarshalBaiduResponse body = Except.ok r
                    ∧ r.DictResult.SimpleMeans.Symbols = s0 :: rest
                    ∧ stdoutBy Gid.baidu (main env args sched).log
                        = baiduSummary (args.getD 1 "") s0 r.DictResult.SimpleMeans.WordMeans)
                ∨ ∃ msg, (queryBaidu env (args.getD 1 "")).out = Outcome.panic msg))
      ∧ (args.length = 2 → (queryBaidu env (args.getD 1 "")).out = Outcome.ok () →
          (queryCaiyun env (args.getD 1 "")).out = Outcome.ok () →
          (main env args sched).proc.exitCode = some 0)
      ∧ (args.length ≠ 2 → (main env args sched).proc.exitCode = some 1)
      ∧ ((∃ code, (queryBaidu env (args.getD 1 "")).out = Outcome.exit code
            ∨ (queryCaiyun env (args.getD 1 "")).out = Outcome.exit code) →
          ∃ code, (main env args sched).proc.exitCode = some code ∧ code ≠ 0) := by
  by_cases hlen : args.length = 2
  · obtain ⟨name, word, hargs⟩ := List.length_eq_two.1 hlen
    subst hargs
    obtain ⟨hends, hzero, hboth⟩ := wgWait_exit_zero (queryBaidu env word)
      (queryCaiyun env word) (queryBaidu_shape env word) (queryCaiyun_shape env word)
      ((goroutine (queryBaidu env word)).length + (goroutine (queryCaiyun env word)).length + 1)
      sched (Nat.le_refl _)
    change (∃ code, (main env [name, word] sched).proc.exitCode = some code) at hends
    change ((main env [name, word] sched).proc.exitCode = some 0 →
      stepEvents (stepsOf Gid.baidu (main env [name, word] sched).log)
          = (queryBaidu env word).trace
        ∧ stepEvents (stepsOf Gid.caiyun (main env [name, word] sched).log)
          = (queryCaiyun env word).trace
        ∧ (∀ code, (queryBaidu env word).out ≠ Outcome.exit code)
        ∧ (∀ code, (queryCaiyun env word).out ≠ Outcome.exit code)) at hzero
    change ((queryBaidu env word).out = Outcome.ok () →
      (queryCaiyun env word).out = Outcome.ok () →
      (main env [name, word] sched).proc.exitCode = some 0) at hboth
    have hword : [name, word].getD 1 "" = word := rfl
    rw [hword]
    have hfwd : (main env [name, word] sched).proc.exitCode = some 0 →
        (∀ code, (queryBaidu env word).out ≠ Outcome.exit code)
          ∧ (queryCaiyun env word).out = Outcome.ok ()
          ∧ (∃ body d, env.unmarshalDictResponse body = Except.ok d
              ∧ stdoutBy Gid.caiyun (main env [name, word] sched).log = caiyunSummary word d)
          ∧ (((queryBaidu env word).out = Outcome.ok ()
                ∧ ∃ body r s0 rest, env.unmarshalBaiduResponse body = Except.ok r
                  ∧ r.DictResult.SimpleMeans.Symbols = s0 :: rest
                  ∧ stdoutBy Gid.baidu (main env [name, word] sched).log
                      = baiduSummary word s0 r.DictResult.SimpleMeans.WordMeans)
              ∨ ∃ msg, (queryBaidu env word).out = Outcome.panic msg) := by
      intro hex
      obtain ⟨hbt, hct, hbne, hcne⟩ := hzero hex
      have hco : (queryCaiyun env word).out = Outcome.ok () := by
        cases hout : (queryCaiyun env word).out with
        | ok u => rfl
        | exit code => exact absurd hout (hcne code)
        | panic msg => exact absurd hout (queryCaiyun_no_panic env word msg)
      obtain ⟨body, d, hu, hsum⟩ := queryCaiyun_ok_summary env word hco
      refine ⟨hbne, hco, ⟨body, d, hu, ?_⟩, ?_⟩
      · unfold stdoutBy
        rw [hct, hsum]
      · cases hout : (queryBaidu env word).out with
        | ok u =>
          obtain ⟨body2, r, s0, rest, hu2, hsym, hsum2⟩ := queryBaidu_ok_summary env word hout
          refine Or.inl ⟨rfl, body2, r, s0, rest, hu2, hsym, ?_⟩
          unfold stdoutBy
          rw [hbt, hsum2]
        | exit code => exact absurd hout (hbne code)
        | panic msg => exact Or.inr ⟨msg, rfl⟩
    refine ⟨hends, fun hex => ⟨rfl, hfwd hex⟩, fun _ => hboth, fun hne => absurd rfl hne, ?_⟩
    rintro ⟨code, hfatal⟩
    obtain ⟨k, hk⟩ := hends
    refine ⟨k, hk, ?_⟩
    intro hk0
    subst hk0
    obtain ⟨hbne, hco, _, _⟩ := hfwd hk
    rcases hfatal with hb | hc
    · exact hbne code hb
    · rw [hco] at hc
      cases hc
  · have hmain : (main env args sched).proc.exitCode = some 1 := by simp [main, hlen]
    refine ⟨⟨1, hmain⟩, ?_, fun h => absurd h hlen, fun _ => hmain, fun _ => ⟨1, hmain, by decide⟩⟩
    rw [hmain]
    intro h
    cases h

/-- C9, amended, on a run in which both clients succeed: the process ends with
status 0. -/
theorem main_exit_status_witness :
    (main helloEnv ["simpleDict", "hello"] [true, false]).proc.exitCode = some 0 :=
  (main_exit_status helloEnv ["simpleDict", "hello"] [true, false]).2.2.1 rfl
    (queryBaidu_success helloEnv "hello" "ok" (plainResponse 200) helloBaiduResponse _ _
      rfl rfl rfl rfl rfl).2
    (queryCaiyun_success helloEnv "hello" _ "ok" (plainResponse 200) helloDictResponse
      rfl rfl rfl rfl rfl rfl).2

end SimpleDictionary
